import Mathlib

/-!
# Rate limiter: admission decisions over a shared counter store

A shallow embedding of the Go packages `internal/core/domain`, `internal/core/ports`,
`internal/core/services` (the limiter core), the in-memory store used by the service tests,
and `internal/adapters/storage/redis` (the Redis-backed store), followed by theorems about
rule resolution, key derivation, the allow/deny decision and the store calls it performs.

Modelling conventions

* Go `string` values are Lean `String`s (valid UTF-8 text); `strings.TrimSpace` and
  `strings.ToLower` work on the list of runes.
* Go `int`, `int64`, `time.Duration` and the instants of `time.Time` are `Int`, durations
  and instants counted in nanoseconds; `int` is taken to be 64 bits wide, so the
  conversion `int(currentCount)` is the identity.  Where the code does arithmetic on a
  machine integer (the in-memory counter, Redis `INCR`) the 64-bit range is explicit.
* A Go `(value, error)` result whose value is ignored on error is an `Except`; a result pair
  whose both components are returned to the caller is a pair.
* The store behind the `ports.Storage` interface is mutable and shared: its state is passed
  explicitly, every operation returns the state it leaves behind.
* `context.Context` is passed through opaquely by the code and is not modelled.
-/

namespace RateLimiter

/-! ## Go runtime pieces used by the core -/

/-- Values of Go's `error` interface that occur in this program: the sentinel
`domain.ErrBlocked`, a fresh error built by `fmt.Errorf` with its message, and an error value
handed up by a store implementation (client library failures), identified by its text. -/
inductive GoError where
  | ErrBlocked
  | Errorf (msg : String)
  | StoreFailure (msg : String)
  deriving DecidableEq

deriving instance DecidableEq for Except

/-- Go `unicode.IsSpace`: the Unicode White_Space property
(U+0009..U+000D, U+0020, U+0085, U+00A0, U+1680, U+2000..U+200A, U+2028, U+2029, U+202F,
U+205F, U+3000). -/
def isSpace (r : Char) : Bool :=
  (9 ≤ r.toNat && r.toNat ≤ 13) || r.toNat == 32 || r.toNat == 133 || r.toNat == 160 ||
  r.toNat == 5760 || (8192 ≤ r.toNat && r.toNat ≤ 8202) || r.toNat == 8232 ||
  r.toNat == 8233 || r.toNat == 8239 || r.toNat == 8287 || r.toNat == 12288

/-- Runes of a string with the leading and trailing white space removed. -/
def trimRunes (l : List Char) : List Char :=
  ((l.dropWhile isSpace).reverse.dropWhile isSpace).reverse

/-- Go `strings.TrimSpace`: the string without its leading and trailing white space. -/
def TrimSpace (s : String) : String :=
  ⟨trimRunes s.data⟩

/-- Go `strings.ToLower`: every rune mapped through `unicode.ToLower`.  The Unicode case table
is part of the Go runtime, not of this repository; it is the parameter `lower`. -/
def ToLower (lower : Char → Char) (s : String) : String :=
  ⟨s.data.map lower⟩

/-- The ASCII part of `unicode.ToLower` (`A`..`Z` to `a`..`z`), used to evaluate the
definitions on concrete ASCII inputs. -/
def asciiLower (r : Char) : Char :=
  if 65 ≤ r.toNat ∧ r.toNat ≤ 90 then Char.ofNat (r.toNat + 32) else r

/-- Go conversion of an arbitrary integer to `int64` (two's complement wrap-around). -/
def wrapInt64 (x : Int) : Int :=
  (x + 9223372036854775808) % 18446744073709551616 - 9223372036854775808

/-! ## Package `domain` -/

namespace domain

/-- Go `domain.RateLimitRule`. -/
structure RateLimitRule where
  Requests : Int := 0
  Window : Int := 0
  BlockDuration : Int := 0
  deriving DecidableEq

/-- Go `domain.RateLimitRequest`. -/
structure RateLimitRequest where
  IP : String := ""
  Token : String := ""
  deriving DecidableEq

/-- Go `domain.Decision`; the field defaults are Go's zero values, so `{}` is `Decision{}`. -/
structure Decision where
  Allowed : Bool := false
  Identifier : String := ""
  AppliedRule : RateLimitRule := {}
  CurrentCount : Int := 0
  deriving DecidableEq

/-- Go `domain.IsBlockedError`: `errors.Is(err, ErrBlocked)` on the errors of this model. -/
def IsBlockedError (err : Option GoError) : Bool :=
  err == some GoError.ErrBlocked

end domain

/-! ## Package `ports` -/

namespace ports

/-- Go interface `ports.Storage` over a store whose state has type `σ`.  Each operation takes
the state of the store and returns its result together with the state afterwards. -/
structure Storage (σ : Type) where
  Increment : String → Int → σ → Except GoError Int × σ
  IsBlocked : String → σ → Except GoError Bool × σ
  SetBlock : String → Int → σ → Option GoError × σ

end ports

/-! ## Package `services` -/

namespace services

open domain

/-- Go `services.Config`.  `TokenRules` is a Go map: `none` is the nil map, `some m` a map
whose entry for `k` is `m k`. -/
structure Config where
  DefaultIPRule : RateLimitRule := {}
  DefaultTokenRule : RateLimitRule := {}
  TokenRules : Option (String → Option RateLimitRule) := none

/-- Go map index `rule, ok := m[key]`; reading a nil map finds nothing. -/
def Config.lookup (m : Option (String → Option RateLimitRule)) (key : String) :
    Option RateLimitRule :=
  match m with
  | none => none
  | some f => f key

/-- Go `services.RateLimiterService`. -/
structure RateLimiterService (σ : Type) where
  storage : ports.Storage σ
  config : Config

/-- Go `NewRateLimiterService`; `storage = none` is the nil interface value. -/
def NewRateLimiterService {σ : Type} (storage : Option (ports.Storage σ)) (cfg : Config) :
    Except GoError (RateLimiterService σ) :=
  match storage with
  | none => .error (.Errorf "storage is required")
  | some st =>
    if cfg.DefaultIPRule.Requests ≤ 0 ∨ cfg.DefaultIPRule.Window ≤ 0 then
      .error (.Errorf "default IP rule must have positive values")
    else
      let cfg := match cfg.TokenRules with
        | none => { cfg with TokenRules := some (fun _ => none) }
        | some _ => cfg
      .ok { storage := st, config := cfg }

/-- Go `resolvedKeys`. -/
structure resolvedKeys where
  counterKey : String := ""
  blockKey : String := ""
  identifier : String := ""
  deriving DecidableEq

/-- Go `buildKeys(prefix, identifier)`; the first parameter is called `category` here. -/
def buildKeys (lower : Char → Char) (category identifier : String) : resolvedKeys :=
  let identifier := ToLower lower (TrimSpace identifier)
  { counterKey := "ratelimit:" ++ category ++ ":" ++ identifier
    blockKey := "ratelimit:" ++ category ++ ":" ++ identifier ++ ":block"
    identifier := identifier }

/-- Go `(*RateLimiterService).resolveRule`.  `byIP` is the code after the token block, which
is reached when the token block does not return. -/
def RateLimiterService.resolveRule {σ : Type} (lower : Char → Char)
    (s : RateLimiterService σ) (req : RateLimitRequest) :
    Except GoError (RateLimitRule × resolvedKeys) :=
  let token := TrimSpace req.Token
  let byIP : Except GoError (RateLimitRule × resolvedKeys) :=
    let ip := TrimSpace req.IP
    if ip = "" then
      .error (.Errorf "ip address is required when token has no override")
    else
      .ok (s.config.DefaultIPRule, buildKeys lower "ip" ip)
  if token ≠ "" then
    match Config.lookup s.config.TokenRules token with
    | some rule => .ok (rule, buildKeys lower "token" token)
    | none =>
      if s.config.DefaultTokenRule.Requests > 0 ∧ s.config.DefaultTokenRule.Window > 0 then
        .ok (s.config.DefaultTokenRule, buildKeys lower "token" token)
      else byIP
  else byIP

/-- Go `(*RateLimiterService).Allow`: the returned pair is Go's `(Decision, error)` with
`none` for the nil error, followed by the state the store is left in. -/
def RateLimiterService.Allow {σ : Type} (lower : Char → Char) (s : RateLimiterService σ)
    (req : RateLimitRequest) (store : σ) : (Decision × Option GoError) × σ :=
  match s.resolveRule lower req with
  | .error err => (({}, some err), store)
  | .ok (rule, keys) =>
    match s.storage.IsBlocked keys.blockKey store with
    | (.error err, store) => (({}, some err), store)
    | (.ok true, store) =>
      (({ Allowed := false, Identifier := keys.identifier, AppliedRule := rule },
        some .ErrBlocked), store)
    | (.ok false, store) =>
      match s.storage.Increment keys.counterKey rule.Window store with
      | (.error err, store) => (({}, some err), store)
      | (.ok currentCount, store) =>
        if currentCount > rule.Requests then
          match s.storage.SetBlock keys.blockKey rule.BlockDuration store with
          | (some setErr, store) => (({}, some setErr), store)
          | (none, store) =>
            (({ Allowed := false, Identifier := keys.identifier, AppliedRule := rule,
                CurrentCount := currentCount }, some .ErrBlocked), store)
        else
          (({ Allowed := true, Identifier := keys.identifier, AppliedRule := rule,
              CurrentCount := currentCount }, none), store)

/-! ### The in-memory store of the service tests -/

/-- Go `mockStorage` (service tests): `counts` and `blocks` are Go maps, `none` meaning that
the key is absent; a block entry holds the instant at which the block expires. -/
structure mockStorage where
  counts : String → Option Int
  blocks : String → Option Int

/-- Go `newMockStorage`: both maps empty. -/
def newMockStorage : mockStorage :=
  { counts := fun _ => none, blocks := fun _ => none }

/-- Go `(*mockStorage).Increment`: `m.counts[key]++` on an `int64` entry (a missing entry
reads as zero), the window is ignored. -/
def mockStorage.Increment (m : mockStorage) (key : String) (_window : Int) :
    Except GoError Int × mockStorage :=
  let v := wrapInt64 ((m.counts key).getD 0 + 1)
  (.ok v, { m with counts := fun k => if k = key then some v else m.counts k })

/-- Go `(*mockStorage).IsBlocked`; `now` is the value of `time.Now()` during the call. -/
def mockStorage.IsBlocked (now : Int) (m : mockStorage) (key : String) :
    Except GoError Bool × mockStorage :=
  match m.blocks key with
  | none => (.ok false, m)
  | some expiration =>
    if now > expiration then
      (.ok false, { m with blocks := fun k => if k = key then none else m.blocks k })
    else (.ok true, m)

/-- Go `(*mockStorage).SetBlock`; `now` is the value of `time.Now()` during the call. -/
def mockStorage.SetBlock (now : Int) (m : mockStorage) (key : String) (duration : Int) :
    Option GoError × mockStorage :=
  if duration ≤ 0 then
    (none, { m with blocks := fun k => if k = key then none else m.blocks k })
  else
    (none, { m with blocks := fun k => if k = key then some (now + duration) else m.blocks k })

/-- The test process as seen by the store: the mock and the wall clock read by `time.Now()`. -/
structure testWorld where
  storage : mockStorage
  clock : Int

/-- The value `*mockStorage` used as a `ports.Storage`: every operation acts on the mock of
the world and reads the world's clock. -/
def mockStorage.port : ports.Storage testWorld where
  Increment key window w :=
    ((w.storage.Increment key window).1, { w with storage := (w.storage.Increment key window).2 })
  IsBlocked key w :=
    ((w.storage.IsBlocked w.clock key).1,
      { w with storage := (w.storage.IsBlocked w.clock key).2 })
  SetBlock key duration w :=
    ((w.storage.SetBlock w.clock key duration).1,
      { w with storage := (w.storage.SetBlock w.clock key duration).2 })

/-- Time passes in the test process: the clock moves forward by `d`. -/
def testWorld.sleep (d : Int) (w : testWorld) : testWorld :=
  { w with clock := w.clock + d }

end services

/-! ## Package `redis` (storage adapter)

The adapter drives a Redis server through the go-redis client.  Neither is part of this
repository; the server is modelled here by its keyspace and clock, and each command by its
documented effect (`INCR`, `EXPIRE`, `EXISTS`, `DEL`, `SET` with an expiry).  Every value the
adapter stores is an integer.  Commands always reach the server (connection failures are not
modelled), and a duration is taken as the exact time to live that the client requests. -/

namespace redis

/-- One key of the server: its integer value and, when it is volatile, the instant at which
it expires. -/
structure entry where
  value : Int
  expireAt : Option Int
  deriving DecidableEq

/-- The Redis server: the keyspace and the server clock. -/
structure server where
  keys : String → Option entry
  clock : Int

/-- The entry of `key` as the commands see it: a key whose expiry instant has been reached
does not exist any more. -/
def server.live (srv : server) (key : String) : Option entry :=
  match srv.keys key with
  | none => none
  | some e =>
    match e.expireAt with
    | none => some e
    | some t => if srv.clock < t then some e else none

/-- Writes (or with `none` removes) the entry of `key`. -/
def server.put (srv : server) (key : String) (e : Option entry) : server :=
  { srv with keys := fun k => if k = key then e else srv.keys k }

/-- Redis `INCR key`: a missing key is created with value 1 and no expiry; an existing key is
incremented and keeps its expiry; the command fails when the result would leave the signed
64-bit range. -/
def server.INCR (srv : server) (key : String) : Except GoError Int × server :=
  match srv.live key with
  | none => (.ok 1, srv.put key (some { value := 1, expireAt := none }))
  | some e =>
    if e.value + 1 < 9223372036854775808 then
      (.ok (e.value + 1), srv.put key (some { e with value := e.value + 1 }))
    else (.error (.StoreFailure "ERR increment or decrement would overflow"), srv)

/-- Redis `EXPIRE key ttl`: on an existing key, a positive `ttl` sets the expiry to `ttl` from
now and a non-positive one deletes the key; a missing key is left alone. -/
def server.EXPIRE (srv : server) (key : String) (ttl : Int) : server :=
  match srv.live key with
  | none => srv
  | some e =>
    if ttl ≤ 0 then srv.put key none
    else srv.put key (some { e with expireAt := some (srv.clock + ttl) })

/-- Redis `EXISTS key`: the number of the given keys that exist. -/
def server.EXISTS (srv : server) (key : String) : Int :=
  match srv.live key with
  | none => 0
  | some _ => 1

/-- Redis `DEL key`. -/
def server.DEL (srv : server) (key : String) : server :=
  srv.put key none

/-- Redis `SET key value` with an expiry of `ttl` from now (`ttl` positive). -/
def server.SET (srv : server) (key : String) (value : Int) (ttl : Int) : server :=
  srv.put key (some { value := value, expireAt := some (srv.clock + ttl) })

/-- Remaining time to live of `key`: `none` when the key does not exist or never expires. -/
def server.ttl (srv : server) (key : String) : Option Int :=
  match srv.live key with
  | none => none
  | some e => e.expireAt.map (fun t => t - srv.clock)

/-- Go `(*Storage).Increment`: a transaction pipeline that queues `INCR key` and
`EXPIRE key window` and executes both; the error of `Exec` is the first error of a queued
command, and the `EXPIRE` runs whether or not the `INCR` succeeded. -/
def Storage.Increment (srv : server) (key : String) (window : Int) :
    Except GoError Int × server :=
  let counter := srv.INCR key
  let srv := counter.2.EXPIRE key window
  match counter.1 with
  | .error err => (.error err, srv)
  | .ok val => (.ok val, srv)

/-- Go `(*Storage).IsBlocked`: `EXISTS key` is positive. -/
def Storage.IsBlocked (srv : server) (key : String) : Except GoError Bool × server :=
  (.ok (decide (srv.EXISTS key > 0)), srv)

/-- Go `(*Storage).SetBlock`: `DEL key` for a non-positive duration, else `SET key "1"` with
the duration as expiry. -/
def Storage.SetBlock (srv : server) (key : String) (duration : Int) :
    Option GoError × server :=
  if duration ≤ 0 then (none, srv.DEL key)
  else (none, srv.SET key 1 duration)

/-- The value `*redis.Storage` used as a `ports.Storage`. -/
def Storage.port : ports.Storage server where
  Increment key window srv := Storage.Increment srv key window
  IsBlocked key srv := Storage.IsBlocked srv key
  SetBlock key duration srv := Storage.SetBlock srv key duration

end redis

/-! ## Observing the store calls of `Allow` -/

open domain services

/-- One call on the `ports.Storage` interface, with its arguments and its result. -/
inductive StoreCall where
  | IsBlocked (key : String) (result : Except GoError Bool)
  | Increment (key : String) (window : Int) (result : Except GoError Int)
  | SetBlock (key : String) (duration : Int) (result : Option GoError)
  deriving DecidableEq

/-- A store that behaves as `st` and appends every call made on it to a log. -/
def recording {σ : Type} (st : ports.Storage σ) : ports.Storage (σ × List StoreCall) where
  Increment key window s :=
    ((st.Increment key window s.1).1,
      ((st.Increment key window s.1).2,
        s.2 ++ [StoreCall.Increment key window (st.Increment key window s.1).1]))
  IsBlocked key s :=
    ((st.IsBlocked key s.1).1,
      ((st.IsBlocked key s.1).2, s.2 ++ [StoreCall.IsBlocked key (st.IsBlocked key s.1).1]))
  SetBlock key duration s :=
    ((st.SetBlock key duration s.1).1,
      ((st.SetBlock key duration s.1).2,
        s.2 ++ [StoreCall.SetBlock key duration (st.SetBlock key duration s.1).1]))

/-- The store calls that `Allow` performs for `req` when the store is in state `store`, in
the order in which they are made. -/
def storeCalls {σ : Type} (lower : Char → Char) (s : RateLimiterService σ)
    (req : RateLimitRequest) (store : σ) : List StoreCall :=
  (RateLimiterService.Allow lower { s with storage := recording s.storage } req (store, [])).2.2

/-- State of the store when the call number `i` (counted from zero) of a sequence of `Allow`
calls for `req` starts.  Before each call the surroundings of the service (the passing of
time, expiry inside the store, requests of other clients) change the store by `env i`. -/
def stateBefore {σ : Type} (lower : Char → Char) (s : RateLimiterService σ)
    (req : RateLimitRequest) (env : Nat → σ → σ) (store : σ) : Nat → σ
  | 0 => env 0 store
  | i + 1 => env (i + 1) (s.Allow lower req (stateBefore lower s req env store i)).2

/-- The Counter Store Port contract, for the time during which no counter and no block marker
expires.  `count` reads the current value of a counter (zero when there is none) and
`blocked` tells whether a block marker exists.  Every operation succeeds; `IsBlocked` reports
the marker and changes nothing observable; `Increment` with a positive window adds one to the
counter and returns the new value (as long as it fits an `int64`); `SetBlock` sets the marker
for a positive duration and clears it otherwise; `Increment` and `SetBlock` leave every other
key as it was. -/
structure MeetsContract {σ : Type} (st : ports.Storage σ) (count : σ → String → Int)
    (blocked : σ → String → Bool) : Prop where
  isBlocked_result : ∀ key s, (st.IsBlocked key s).1 = .ok (blocked s key)
  isBlocked_frame : ∀ key s k,
    count (st.IsBlocked key s).2 k = count s k ∧ blocked (st.IsBlocked key s).2 k = blocked s k
  increment_result : ∀ key w s, 0 < w → 0 ≤ count s key →
    count s key + 1 < 9223372036854775808 →
    (st.Increment key w s).1 = .ok (count s key + 1) ∧
      count (st.Increment key w s).2 key = count s key + 1
  increment_frame : ∀ key w s k, k ≠ key →
    count (st.Increment key w s).2 k = count s k ∧
      blocked (st.Increment key w s).2 k = blocked s k
  setBlock_result : ∀ key d s,
    (st.SetBlock key d s).1 = none ∧ blocked (st.SetBlock key d s).2 key = decide (0 < d)
  setBlock_frame : ∀ key d s k, k ≠ key →
    count (st.SetBlock key d s).2 k = count s k ∧
      blocked (st.SetBlock key d s).2 k = blocked s k

/-- Counter value of the in-memory store: the entry of `counts`, zero when absent. -/
def mockCount (w : testWorld) (key : String) : Int :=
  (w.storage.counts key).getD 0

/-- Block marker of the in-memory store: an entry of `blocks` that the clock has not passed. -/
def mockBlocked (w : testWorld) (key : String) : Bool :=
  match w.storage.blocks key with
  | none => false
  | some expiration => !decide (w.clock > expiration)

/-- The error with which a recorded store call failed, `none` for a call that succeeded. -/
def StoreCall.failure : StoreCall → Option GoError
  | .IsBlocked _ (.error err) => some err
  | .IsBlocked _ (.ok _) => none
  | .Increment _ _ (.error err) => some err
  | .Increment _ _ (.ok _) => none
  | .SetBlock _ _ err => err

/-- Whether a recorded store call is an `Increment`. -/
def StoreCall.isIncrement : StoreCall → Bool
  | .Increment _ _ _ => true
  | _ => false

/-- Whether a recorded store call is a `SetBlock`. -/
def StoreCall.isSetBlock : StoreCall → Bool
  | .SetBlock _ _ _ => true
  | _ => false

/-- The key that a recorded store call was made on. -/
def StoreCall.key : StoreCall → String
  | .IsBlocked key _ => key
  | .Increment key _ _ => key
  | .SetBlock key _ _ => key

/-- Fault injection: a store that behaves as `st`, except that an operation for which an
error is given fails with that error and leaves the store as it is. -/
def failing {σ : Type} (st : ports.Storage σ)
    (onIsBlocked onIncrement onSetBlock : Option GoError) : ports.Storage σ where
  Increment key window s :=
    match onIncrement with
    | some err => (.error err, s)
    | none => st.Increment key window s
  IsBlocked key s :=
    match onIsBlocked with
    | some err => (.error err, s)
    | none => st.IsBlocked key s
  SetBlock key duration s :=
    match onSetBlock with
    | some err => (some err, s)
    | none => st.SetBlock key duration s

/-! ## Scenarios used to evaluate the definitions -/

namespace scenario

/-- One second in nanoseconds. -/
def second : Int := 1000000000

/-- One minute in nanoseconds. -/
def minute : Int := 60000000000

/-- The rule of `TestRateLimiter_BlocksAfterExceedingIPLimit`. -/
def ipRule : RateLimitRule :=
  { Requests := 2, Window := second, BlockDuration := minute }

/-- The token rule of `TestRateLimiter_UsesTokenOverride`. -/
def tokenRule : RateLimitRule :=
  { Requests := 5, Window := second, BlockDuration := minute }

/-- A fresh test process: empty mock, clock at zero. -/
def freshWorld : testWorld :=
  { storage := newMockStorage, clock := 0 }

/-- Service over the in-memory store: default IP rule `ipRule`, no default token rule, one
token override for `abc123`. -/
def service : RateLimiterService testWorld :=
  { storage := mockStorage.port
    config :=
      { DefaultIPRule := ipRule
        TokenRules := some (fun k => if k = "abc123" then some tokenRule else none) } }

/-- As `service`, with a token override whose key is padded with blanks. -/
def paddedService : RateLimiterService testWorld :=
  { storage := mockStorage.port
    config :=
      { DefaultIPRule := ipRule
        TokenRules := some (fun k => if k = " vip " then some tokenRule else none) } }

/-- As `service`, with the default token rule `tokenRule` and no token override. -/
def defaultTokenService : RateLimiterService testWorld :=
  { storage := mockStorage.port
    config :=
      { DefaultIPRule := ipRule, DefaultTokenRule := tokenRule,
        TokenRules := some (fun _ => none) } }

/-- As `service`, over a store whose `SetBlock` fails. -/
def brokenSetBlockService : RateLimiterService testWorld :=
  { service with
    storage := failing mockStorage.port none none (some (.StoreFailure "connection refused")) }

/-- As `service`, over a store whose `IsBlocked` fails. -/
def brokenIsBlockedService : RateLimiterService testWorld :=
  { service with
    storage := failing mockStorage.port (some (.StoreFailure "connection refused")) none none }

/-- As `service`, with a default IP rule that blocks for no time at all. -/
def noBlockService : RateLimiterService testWorld :=
  { storage := mockStorage.port
    config :=
      { DefaultIPRule := { Requests := 1, Window := second, BlockDuration := 0 }
        TokenRules := some (fun _ => none) } }

/-- A Redis server without keys, clock at zero. -/
def emptyServer : redis.server :=
  { keys := fun _ => none, clock := 0 }

/-- Service over the Redis store with the default IP rule `ipRule`, the default token rule
`tokenRule` and no token override. -/
def redisService : RateLimiterService redis.server :=
  { storage := redis.Storage.port
    config :=
      { DefaultIPRule := ipRule, DefaultTokenRule := tokenRule,
        TokenRules := some (fun _ => none) } }

end scenario

/-! ## Strings and keys -/

theorem dropWhile_rdrop_fix (p : Char → Bool) (m : List Char)
    (hm : m.dropWhile p = m) :
    ((m.reverse.dropWhile p).reverse).dropWhile p = (m.reverse.dropWhile p).reverse := by
  have hpre : (m.reverse.dropWhile p).reverse <+: m := by
    have := List.rdropWhile_prefix p m
    simpa [List.rdropWhile] using this
  rcases hr : (m.reverse.dropWhile p).reverse with _ | ⟨a, r⟩
  · rfl
  · rw [hr] at hpre
    obtain ⟨t, ht⟩ := hpre
    subst ht
    simp only [List.cons_append] at hm
    rw [List.dropWhile_cons]
    split
    · rename_i hpa
      exfalso
      rw [List.dropWhile_cons, if_pos hpa] at hm
      have hlen := congrArg List.length hm
      have hle := (List.dropWhile_sublist (l := r ++ t) p).length_le
      simp only [List.length_cons] at hlen
      omega
    · rfl

theorem trimRunes_idem (l : List Char) : trimRunes (trimRunes l) = trimRunes l := by
  unfold trimRunes
  have h1 : (l.dropWhile isSpace).dropWhile isSpace = l.dropWhile isSpace :=
    List.dropWhile_idempotent _ _
  rw [dropWhile_rdrop_fix isSpace _ h1]
  simp only [List.reverse_reverse]
  rw [List.dropWhile_idempotent]

theorem TrimSpace_idem (x : String) : TrimSpace (TrimSpace x) = TrimSpace x := by
  simp [TrimSpace, trimRunes_idem]

theorem buildKeys_normal (lower : Char → Char) (category a b : String)
    (h : ToLower lower (TrimSpace a) = ToLower lower (TrimSpace b)) :
    buildKeys lower category a = buildKeys lower category b := by
  simp only [buildKeys, h]

theorem buildKeys_trim (lower : Char → Char) (category a : String) :
    buildKeys lower category (TrimSpace a) = buildKeys lower category a :=
  buildKeys_normal lower category _ _ (by rw [TrimSpace_idem])

theorem counterKey_ne_blockKey (lower : Char → Char) (category a : String) :
    (buildKeys lower category a).counterKey ≠ (buildKeys lower category a).blockKey := by
  intro h
  have := congrArg String.length h
  simp [buildKeys, String.length_append] at this
  exact absurd this (by decide)

theorem ip_keys_ne_token_keys (lower : Char → Char) (a b : String) :
    (buildKeys lower "ip" a).counterKey ≠ (buildKeys lower "token" b).counterKey ∧
    (buildKeys lower "ip" a).blockKey ≠ (buildKeys lower "token" b).blockKey := by
  constructor <;> intro h <;>
  · have := congrArg String.data h
    simp [buildKeys, String.data_append] at this

/-! ## Rule resolution -/

section resolution
variable {σ : Type} (lower : Char → Char) (s : RateLimiterService σ) (req : RateLimitRequest)

theorem resolveRule_listed (rule : RateLimitRule) (htok : TrimSpace req.Token ≠ "")
    (hin : Config.lookup s.config.TokenRules (TrimSpace req.Token) = some rule) :
    s.resolveRule lower req = .ok (rule, buildKeys lower "token" req.Token) := by
  simp only [RateLimiterService.resolveRule, htok, hin, buildKeys_trim]
  simp only [ne_eq, ite_not]
  rw [if_neg htok]

theorem resolveRule_default_token (htok : TrimSpace req.Token ≠ "")
    (hnot : Config.lookup s.config.TokenRules (TrimSpace req.Token) = none)
    (hdef : s.config.DefaultTokenRule.Requests > 0 ∧ s.config.DefaultTokenRule.Window > 0) :
    s.resolveRule lower req =
      .ok (s.config.DefaultTokenRule, buildKeys lower "token" req.Token) := by
  simp only [RateLimiterService.resolveRule, htok, hnot, buildKeys_trim, hdef]
  simp only [ne_eq, ite_not]
  rw [if_neg htok]
  simp

theorem resolveRule_by_ip
    (hskip : TrimSpace req.Token = "" ∨
      (Config.lookup s.config.TokenRules (TrimSpace req.Token) = none ∧
        ¬ (s.config.DefaultTokenRule.Requests > 0 ∧ s.config.DefaultTokenRule.Window > 0))) :
    s.resolveRule lower req =
      if TrimSpace req.IP = "" then
        .error (.Errorf "ip address is required when token has no override")
      else .ok (s.config.DefaultIPRule, buildKeys lower "ip" req.IP) := by
  rcases hskip with h | ⟨h1, h2⟩
  · simp only [RateLimiterService.resolveRule, h, buildKeys_trim]
    simp
  · by_cases h : TrimSpace req.Token = ""
    · simp only [RateLimiterService.resolveRule, h, buildKeys_trim]
      simp
    · simp only [RateLimiterService.resolveRule, h, h1, buildKeys_trim, if_neg h2]
      simp

theorem resolveRule_keys (rule : RateLimitRule) (keys : resolvedKeys)
    (hres : s.resolveRule lower req = .ok (rule, keys)) :
    ∃ category identifier, keys = buildKeys lower category identifier := by
  by_cases htok : TrimSpace req.Token = ""
  · rw [resolveRule_by_ip lower s req (Or.inl htok)] at hres
    split at hres
    · cases hres
    · cases hres
      exact ⟨_, _, rfl⟩
  · cases hl : Config.lookup s.config.TokenRules (TrimSpace req.Token) with
    | some r =>
      rw [resolveRule_listed lower s req r htok hl] at hres
      cases hres
      exact ⟨_, _, rfl⟩
    | none =>
      by_cases hdef :
          s.config.DefaultTokenRule.Requests > 0 ∧ s.config.DefaultTokenRule.Window > 0
      · rw [resolveRule_default_token lower s req htok hl hdef] at hres
        cases hres
        exact ⟨_, _, rfl⟩
      · rw [resolveRule_by_ip lower s req (Or.inr ⟨hl, hdef⟩)] at hres
        split at hres
        · cases hres
        · cases hres
          exact ⟨_, _, rfl⟩

end resolution

/-! ## The paths through `Allow` -/

section paths
variable {σ : Type} (lower : Char → Char) (s : RateLimiterService σ) (req : RateLimitRequest)
  (store : σ)

theorem resolveRule_recording :
    RateLimiterService.resolveRule lower { s with storage := recording s.storage } req =
      s.resolveRule lower req := rfl

theorem allow_resolve_error (err : GoError) (hres : s.resolveRule lower req = .error err) :
    s.Allow lower req store = (({}, some err), store) ∧ storeCalls lower s req store = [] := by
  constructor
  · simp only [RateLimiterService.Allow, hres]
  · simp only [storeCalls, RateLimiterService.Allow, resolveRule_recording, hres]

theorem allow_isBlocked_error (rule : RateLimitRule) (keys : resolvedKeys) (err : GoError)
    (hres : s.resolveRule lower req = .ok (rule, keys))
    (hb : (s.storage.IsBlocked keys.blockKey store).1 = .error err) :
    s.Allow lower req store = (({}, some err), (s.storage.IsBlocked keys.blockKey store).2) ∧
      storeCalls lower s req store = [.IsBlocked keys.blockKey (.error err)] := by
  rcases hp : s.storage.IsBlocked keys.blockKey store with ⟨r, s1⟩
  rw [hp] at hb
  simp only at hb
  subst hb
  constructor
  · simp only [RateLimiterService.Allow, hres, hp]
  · simp only [storeCalls, RateLimiterService.Allow, resolveRule_recording, hres]
    simp [recording, hp]

theorem allow_isBlocked_true (rule : RateLimitRule) (keys : resolvedKeys)
    (hres : s.resolveRule lower req = .ok (rule, keys))
    (hb : (s.storage.IsBlocked keys.blockKey store).1 = .ok true) :
    s.Allow lower req store =
        (({ Allowed := false, Identifier := keys.identifier, AppliedRule := rule },
          some .ErrBlocked), (s.storage.IsBlocked keys.blockKey store).2) ∧
      storeCalls lower s req store = [.IsBlocked keys.blockKey (.ok true)] := by
  rcases hp : s.storage.IsBlocked keys.blockKey store with ⟨r, s1⟩
  rw [hp] at hb
  simp only at hb
  subst hb
  constructor
  · simp only [RateLimiterService.Allow, hres, hp]
  · simp only [storeCalls, RateLimiterService.Allow, resolveRule_recording, hres]
    simp [recording, hp]

theorem allow_increment_error (rule : RateLimitRule) (keys : resolvedKeys) (err : GoError)
    (hres : s.resolveRule lower req = .ok (rule, keys))
    (hb : (s.storage.IsBlocked keys.blockKey store).1 = .ok false)
    (hi : (s.storage.Increment keys.counterKey rule.Window
      (s.storage.IsBlocked keys.blockKey store).2).1 = .error err) :
    s.Allow lower req store = (({}, some err),
        (s.storage.Increment keys.counterKey rule.Window
          (s.storage.IsBlocked keys.blockKey store).2).2) ∧
      storeCalls lower s req store =
        [.IsBlocked keys.blockKey (.ok false),
          .Increment keys.counterKey rule.Window (.error err)] := by
  rcases hp : s.storage.IsBlocked keys.blockKey store with ⟨r, s1⟩
  rw [hp] at hb hi
  simp only at hb hi
  subst hb
  rcases hq : s.storage.Increment keys.counterKey rule.Window s1 with ⟨r2, s2⟩
  rw [hq] at hi
  simp only at hi
  subst hi
  constructor
  · simp only [RateLimiterService.Allow, hres, hp, hq]
  · simp only [storeCalls, RateLimiterService.Allow, resolveRule_recording, hres]
    simp [recording, hp, hq]

theorem allow_within_budget (rule : RateLimitRule) (keys : resolvedKeys) (c : Int)
    (hres : s.resolveRule lower req = .ok (rule, keys))
    (hb : (s.storage.IsBlocked keys.blockKey store).1 = .ok false)
    (hi : (s.storage.Increment keys.counterKey rule.Window
      (s.storage.IsBlocked keys.blockKey store).2).1 = .ok c)
    (hc : ¬ c > rule.Requests) :
    s.Allow lower req store =
        (({ Allowed := true, Identifier := keys.identifier, AppliedRule := rule,
            CurrentCount := c }, none),
        (s.storage.Increment keys.counterKey rule.Window
          (s.storage.IsBlocked keys.blockKey store).2).2) ∧
      storeCalls lower s req store =
        [.IsBlocked keys.blockKey (.ok false),
          .Increment keys.counterKey rule.Window (.ok c)] := by
  rcases hp : s.storage.IsBlocked keys.blockKey store with ⟨r, s1⟩
  rw [hp] at hb hi
  simp only at hb hi
  subst hb
  rcases hq : s.storage.Increment keys.counterKey rule.Window s1 with ⟨r2, s2⟩
  rw [hq] at hi
  simp only at hi
  subst hi
  constructor
  · simp only [RateLimiterService.Allow, hres, hp, hq, if_neg hc]
  · simp only [storeCalls, RateLimiterService.Allow, resolveRule_recording, hres]
    simp [recording, hp, hq, if_neg hc]

theorem allow_setBlock_error (rule : RateLimitRule) (keys : resolvedKeys) (c : Int)
    (err : GoError)
    (hres : s.resolveRule lower req = .ok (rule, keys))
    (hb : (s.storage.IsBlocked keys.blockKey store).1 = .ok false)
    (hi : (s.storage.Increment keys.counterKey rule.Window
      (s.storage.IsBlocked keys.blockKey store).2).1 = .ok c)
    (hc : c > rule.Requests)
    (hs : (s.storage.SetBlock keys.blockKey rule.BlockDuration
      (s.storage.Increment keys.counterKey rule.Window
        (s.storage.IsBlocked keys.blockKey store).2).2).1 = some err) :
    s.Allow lower req store = (({}, some err),
        (s.storage.SetBlock keys.blockKey rule.BlockDuration
          (s.storage.Increment keys.counterKey rule.Window
            (s.storage.IsBlocked keys.blockKey store).2).2).2) ∧
      storeCalls lower s req store =
        [.IsBlocked keys.blockKey (.ok false),
          .Increment keys.counterKey rule.Window (.ok c),
          .SetBlock keys.blockKey rule.BlockDuration (some err)] := by
  rcases hp : s.storage.IsBlocked keys.blockKey store with ⟨r, s1⟩
  rw [hp] at hb hi hs
  simp only at hb hi hs
  subst hb
  rcases hq : s.storage.Increment keys.counterKey rule.Window s1 with ⟨r2, s2⟩
  rw [hq] at hi hs
  simp only at hi hs
  subst hi
  rcases hr : s.storage.SetBlock keys.blockKey rule.BlockDuration s2 with ⟨r3, s3⟩
  rw [hr] at hs
  simp only at hs
  subst hs
  constructor
  · simp only [RateLimiterService.Allow, hres, hp, hq, if_pos hc, hr]
  · simp only [storeCalls, RateLimiterService.Allow, resolveRule_recording, hres]
    simp [recording, hp, hq, hr, hc]

theorem allow_setBlock_ok (rule : RateLimitRule) (keys : resolvedKeys) (c : Int)
    (hres : s.resolveRule lower req = .ok (rule, keys))
    (hb : (s.storage.IsBlocked keys.blockKey store).1 = .ok false)
    (hi : (s.storage.Increment keys.counterKey rule.Window
      (s.storage.IsBlocked keys.blockKey store).2).1 = .ok c)
    (hc : c > rule.Requests)
    (hs : (s.storage.SetBlock keys.blockKey rule.BlockDuration
      (s.storage.Increment keys.counterKey rule.Window
        (s.storage.IsBlocked keys.blockKey store).2).2).1 = none) :
    s.Allow lower req store =
        (({ Allowed := false, Identifier := keys.identifier, AppliedRule := rule,
            CurrentCount := c }, some .ErrBlocked),
        (s.storage.SetBlock keys.blockKey rule.BlockDuration
          (s.storage.Increment keys.counterKey rule.Window
            (s.storage.IsBlocked keys.blockKey store).2).2).2) ∧
      storeCalls lower s req store =
        [.IsBlocked keys.blockKey (.ok false),
          .Increment keys.counterKey rule.Window (.ok c),
          .SetBlock keys.blockKey rule.BlockDuration none] := by
  rcases hp : s.storage.IsBlocked keys.blockKey store with ⟨r, s1⟩
  rw [hp] at hb hi hs
  simp only at hb hi hs
  subst hb
  rcases hq : s.storage.Increment keys.counterKey rule.Window s1 with ⟨r2, s2⟩
  rw [hq] at hi hs
  simp only at hi hs
  subst hi
  rcases hr : s.storage.SetBlock keys.blockKey rule.BlockDuration s2 with ⟨r3, s3⟩
  rw [hr] at hs
  simp only at hs
  subst hs
  constructor
  · simp only [RateLimiterService.Allow, hres, hp, hq, if_pos hc, hr]
  · simp only [storeCalls, RateLimiterService.Allow, resolveRule_recording, hres]
    simp [recording, hp, hq, hr, hc]

end paths

section outcome
variable {σ : Type} (lower : Char → Char) (s : RateLimiterService σ) (req : RateLimitRequest)
  (store : σ)

/-- Every run of `Allow` that resolved a rule either stops at the first failing store call and
returns its error with the zero `Decision`, or makes only successful store calls and returns
a `Decision` that carries the resolved rule and identifier. -/
theorem allow_outcome (rule : RateLimitRule) (keys : resolvedKeys)
    (hres : s.resolveRule lower req = .ok (rule, keys)) :
    (∃ calls call err, storeCalls lower s req store = calls ++ [call] ∧
        call.failure = some err ∧ (∀ c ∈ calls, c.failure = none) ∧
        (s.Allow lower req store).1 = ({}, some err)) ∨
      ((∀ c ∈ storeCalls lower s req store, c.failure = none) ∧
        (s.Allow lower req store).1.1.AppliedRule = rule ∧
        (s.Allow lower req store).1.1.Identifier = keys.identifier) := by
  rcases hb : (s.storage.IsBlocked keys.blockKey store).1 with err | b
  · obtain ⟨h1, h2⟩ := allow_isBlocked_error lower s req store rule keys err hres hb
    exact Or.inl ⟨[], .IsBlocked keys.blockKey (.error err), err, by simpa using h2, rfl,
      by simp, by rw [h1]⟩
  cases b
  swap
  · obtain ⟨h1, h2⟩ := allow_isBlocked_true lower s req store rule keys hres hb
    refine Or.inr ⟨?_, by rw [h1], by rw [h1]⟩
    rw [h2]
    simp [StoreCall.failure]
  rcases hi : (s.storage.Increment keys.counterKey rule.Window
      (s.storage.IsBlocked keys.blockKey store).2).1 with err | c
  · obtain ⟨h1, h2⟩ := allow_increment_error lower s req store rule keys err hres hb hi
    exact Or.inl ⟨[.IsBlocked keys.blockKey (.ok false)],
      .Increment keys.counterKey rule.Window (.error err), err, by simpa using h2, rfl,
      by simp [StoreCall.failure], by rw [h1]⟩
  by_cases hc : c > rule.Requests
  swap
  · obtain ⟨h1, h2⟩ := allow_within_budget lower s req store rule keys c hres hb hi hc
    refine Or.inr ⟨?_, by rw [h1], by rw [h1]⟩
    rw [h2]
    simp [StoreCall.failure]
  rcases hs : (s.storage.SetBlock keys.blockKey rule.BlockDuration
      (s.storage.Increment keys.counterKey rule.Window
        (s.storage.IsBlocked keys.blockKey store).2).2).1 with _ | err
  · obtain ⟨h1, h2⟩ := allow_setBlock_ok lower s req store rule keys c hres hb hi hc hs
    refine Or.inr ⟨?_, by rw [h1], by rw [h1]⟩
    rw [h2]
    simp [StoreCall.failure]
  · obtain ⟨h1, h2⟩ := allow_setBlock_error lower s req store rule keys c err hres hb hi hc hs
    exact Or.inl ⟨[.IsBlocked keys.blockKey (.ok false),
      .Increment keys.counterKey rule.Window (.ok c)],
      .SetBlock keys.blockKey rule.BlockDuration (some err), err, by simpa using h2, rfl,
      by simp [StoreCall.failure], by rw [h1]⟩

end outcome

/-! ## The in-memory store meets the contract -/

theorem wrapInt64_of_range (x : Int) (h0 : 0 ≤ x) (h1 : x < 9223372036854775808) :
    wrapInt64 x = x := by
  unfold wrapInt64
  omega

theorem mock_meets_contract : MeetsContract mockStorage.port mockCount mockBlocked where
  isBlocked_result := by
    intro key w
    simp only [mockStorage.port, mockStorage.IsBlocked, mockBlocked]
    cases h : w.storage.blocks key with
    | none => rfl
    | some t =>
      by_cases hlt : w.clock > t
      · simp [hlt]
      · simp [hlt]
  isBlocked_frame := by
    intro key w k
    simp only [mockStorage.port, mockStorage.IsBlocked, mockBlocked, mockCount]
    cases h : w.storage.blocks key with
    | none => simp
    | some t =>
      by_cases hlt : w.clock > t
      · simp only [hlt, if_true, true_and]
        by_cases hk : k = key
        · subst hk
          simp [h, hlt]
        · simp [hk]
      · simp [hlt]
  increment_result := by
    intro key win w _ h0 h1
    simp only [mockStorage.port, mockStorage.Increment, mockCount] at *
    rw [wrapInt64_of_range _ (by omega) h1]
    simp
  increment_frame := by
    intro key win w k hk
    simp [mockStorage.port, mockStorage.Increment, mockCount, mockBlocked, hk]
  setBlock_result := by
    intro key d w
    simp only [mockStorage.port, mockStorage.SetBlock, mockBlocked]
    by_cases hd : d ≤ 0
    · simp [hd]
    · have h1 : ¬ d < 0 := by omega
      have h2 : 0 < d := by omega
      simp [hd, h1, h2]
  setBlock_frame := by
    intro key d w k hk
    simp only [mockStorage.port, mockStorage.SetBlock, mockBlocked, mockCount]
    by_cases hd : d ≤ 0
    · simp [hd, hk]
    · simp [hd, hk]

theorem sleep_keeps_mock_state (d : Int) (hd : 0 ≤ d) (counter key : String)
    (w : testWorld) :
    mockCount (w.sleep d) counter = mockCount w counter ∧
      (mockBlocked w key = false → mockBlocked (w.sleep d) key = false) := by
  constructor
  · rfl
  · simp only [mockBlocked, testWorld.sleep]
    cases w.storage.blocks key with
    | none => simp
    | some t =>
      simp only [Bool.not_eq_false', decide_eq_true_eq]
      intro h
      omega

/-! ## Runs on a store that meets the contract -/

section contract
variable {σ : Type} (lower : Char → Char) (s : RateLimiterService σ) (req : RateLimitRequest)
  (count : σ → String → Int) (blocked : σ → String → Bool)

theorem resolved_keys_differ (rule : RateLimitRule) (keys : resolvedKeys)
    (hres : s.resolveRule lower req = .ok (rule, keys)) : keys.blockKey ≠ keys.counterKey := by
  obtain ⟨category, identifier, hk⟩ := resolveRule_keys lower s req rule keys hres
  subst hk
  exact fun h => counterKey_ne_blockKey lower category identifier h.symm

/-- One call on a contract store for an identifier without block marker whose counter stands
at `c`: the call increments the counter to `c + 1` and is allowed when `c + 1` is within the
budget, else it sets the block and is rejected. -/
theorem contract_step (hc : MeetsContract s.storage count blocked) (rule : RateLimitRule)
    (keys : resolvedKeys) (hres : s.resolveRule lower req = .ok (rule, keys))
    (hwin : 0 < rule.Window) (w : σ) (c : Int) (hcount : count w keys.counterKey = c)
    (h0 : 0 ≤ c) (hfit : c + 1 < 9223372036854775808)
    (hfree : blocked w keys.blockKey = false) :
    (¬ c + 1 > rule.Requests →
      (s.Allow lower req w).1 =
          ({ Allowed := true, Identifier := keys.identifier, AppliedRule := rule,
             CurrentCount := c + 1 }, none) ∧
        storeCalls lower s req w =
          [.IsBlocked keys.blockKey (.ok false),
            .Increment keys.counterKey rule.Window (.ok (c + 1))] ∧
        count (s.Allow lower req w).2 keys.counterKey = c + 1 ∧
        blocked (s.Allow lower req w).2 keys.blockKey = false) ∧
    (c + 1 > rule.Requests →
      (s.Allow lower req w).1 =
          ({ Allowed := false, Identifier := keys.identifier, AppliedRule := rule,
             CurrentCount := c + 1 }, some .ErrBlocked) ∧
        storeCalls lower s req w =
          [.IsBlocked keys.blockKey (.ok false),
            .Increment keys.counterKey rule.Window (.ok (c + 1)),
            .SetBlock keys.blockKey rule.BlockDuration none] ∧
        count (s.Allow lower req w).2 keys.counterKey = c + 1 ∧
        blocked (s.Allow lower req w).2 keys.blockKey = decide (0 < rule.BlockDuration)) := by
  have hne := resolved_keys_differ lower s req rule keys hres
  have hb : (s.storage.IsBlocked keys.blockKey w).1 = .ok false := by
    rw [hc.isBlocked_result, hfree]
  have hf1 := hc.isBlocked_frame keys.blockKey w
  have hcount1 : count (s.storage.IsBlocked keys.blockKey w).2 keys.counterKey = c := by
    rw [(hf1 _).1, hcount]
  have hi := hc.increment_result keys.counterKey rule.Window
    (s.storage.IsBlocked keys.blockKey w).2 hwin (by rw [hcount1]; exact h0)
    (by rw [hcount1]; exact hfit)
  rw [hcount1] at hi
  have hf2 := hc.increment_frame keys.counterKey rule.Window
    (s.storage.IsBlocked keys.blockKey w).2 keys.blockKey hne
  constructor
  · intro hle
    obtain ⟨e1, e2⟩ := allow_within_budget lower s req w rule keys (c + 1) hres hb hi.1 hle
    refine ⟨by rw [e1], e2, by rw [e1]; exact hi.2, ?_⟩
    rw [e1]
    simp only
    rw [hf2.2, (hf1 _).2, hfree]
  · intro hgt
    have hs := hc.setBlock_result keys.blockKey rule.BlockDuration
      (s.storage.Increment keys.counterKey rule.Window
        (s.storage.IsBlocked keys.blockKey w).2).2
    have hf3 := hc.setBlock_frame keys.blockKey rule.BlockDuration
      (s.storage.Increment keys.counterKey rule.Window
        (s.storage.IsBlocked keys.blockKey w).2).2 keys.counterKey hne.symm
    obtain ⟨e1, e2⟩ := allow_setBlock_ok lower s req w rule keys (c + 1) hres hb hi.1 hgt hs.1
    refine ⟨by rw [e1], e2, ?_, ?_⟩
    · rw [e1]
      simp only
      rw [hf3.1, hi.2]
    · rw [e1]
      exact hs.2

/-- On a contract store, while the surroundings keep the block marker of the resolved
identity in place, every call of a sequence is short-circuited: it is rejected with
`ErrBlocked`, makes the single store call `IsBlocked` and changes no counter. -/
theorem contract_blocked_run (hc : MeetsContract s.storage count blocked)
    (rule : RateLimitRule) (keys : resolvedKeys)
    (hres : s.resolveRule lower req = .ok (rule, keys)) (env : Nat → σ → σ)
    (henv : ∀ i w, blocked w keys.blockKey = true → blocked (env i w) keys.blockKey = true)
    (store : σ) (hstore : blocked store keys.blockKey = true) (i : Nat) :
    (s.Allow lower req (stateBefore lower s req env store i)).1 =
        ({ Allowed := false, Identifier := keys.identifier, AppliedRule := rule },
          some .ErrBlocked) ∧
      storeCalls lower s req (stateBefore lower s req env store i) =
        [.IsBlocked keys.blockKey (.ok true)] ∧
      ∀ k, count (s.Allow lower req (stateBefore lower s req env store i)).2 k =
        count (stateBefore lower s req env store i) k := by
  have hstep : ∀ w, blocked w keys.blockKey = true →
      (s.Allow lower req w).1 =
          ({ Allowed := false, Identifier := keys.identifier, AppliedRule := rule },
            some .ErrBlocked) ∧
        storeCalls lower s req w = [.IsBlocked keys.blockKey (.ok true)] ∧
        (∀ k, count (s.Allow lower req w).2 k = count w k) ∧
        blocked (s.Allow lower req w).2 keys.blockKey = true := by
    intro w hw
    have hb2 : (s.storage.IsBlocked keys.blockKey w).1 = .ok true := by
      rw [hc.isBlocked_result, hw]
    obtain ⟨e1, e2⟩ := allow_isBlocked_true lower s req w rule keys hres hb2
    refine ⟨by rw [e1], e2, ?_, ?_⟩
    · intro k
      rw [e1]
      exact (hc.isBlocked_frame keys.blockKey w k).1
    · rw [e1]
      rw [(hc.isBlocked_frame keys.blockKey w keys.blockKey).2, hw]
  have hinv : ∀ j, blocked (stateBefore lower s req env store j) keys.blockKey = true := by
    intro j
    induction j with
    | zero => exact henv 0 store hstore
    | succ j ih => exact henv (j + 1) _ (hstep _ ih).2.2.2
  obtain ⟨a, b, c, _⟩ := hstep _ (hinv i)
  exact ⟨a, b, c⟩

end contract

/-! ## The Redis store -/

/-- C1. On every store that meets the Counter Store Port contract, for every rule with
`Requests = N` (and a positive window, `N + 1` fitting the 64-bit counter) and every request
resolved to that rule whose identifier has no counter and no block marker: in a sequence of
`N + 1` calls of `Allow` during which the surroundings leave the counter alone and set no
block marker (one window), each of the first `N` calls returns `Allowed = true` with no error
and `CurrentCount` equal to the number of the call; call `N + 1` returns `Allowed = false`
with `ErrBlocked` and `CurrentCount = N + 1`, after `SetBlock` on the block key of the
identifier with the rule's `BlockDuration`. -/
theorem first_requests_allowed_then_blocked {σ : Type} (lower : Char → Char)
    (s : RateLimiterService σ) (req : RateLimitRequest) (count : σ → String → Int)
    (blocked : σ → String → Bool) (hc : MeetsContract s.storage count blocked)
    (rule : RateLimitRule) (keys : resolvedKeys) (N : Nat)
    (hres : s.resolveRule lower req = .ok (rule, keys))
    (hN : rule.Requests = (N : Int)) (hwin : 0 < rule.Window)
    (hfit : (N : Int) + 1 < 9223372036854775808)
    (env : Nat → σ → σ)
    (henv : ∀ i w, count (env i w) keys.counterKey = count w keys.counterKey ∧
      (blocked w keys.blockKey = false → blocked (env i w) keys.blockKey = false))
    (store : σ) (hcount : count store keys.counterKey = 0)
    (hfree : blocked store keys.blockKey = false) :
    (∀ i, i < N →
      (s.Allow lower req (stateBefore lower s req env store i)).1 =
        ({ Allowed := true, Identifier := keys.identifier, AppliedRule := rule,
           CurrentCount := (i : Int) + 1 }, none)) ∧
    (s.Allow lower req (stateBefore lower s req env store N)).1 =
      ({ Allowed := false, Identifier := keys.identifier, AppliedRule := rule,
         CurrentCount := (N : Int) + 1 }, some .ErrBlocked) ∧
    storeCalls lower s req (stateBefore lower s req env store N) =
      [.IsBlocked keys.blockKey (.ok false),
        .Increment keys.counterKey rule.Window (.ok ((N : Int) + 1)),
        .SetBlock keys.blockKey rule.BlockDuration none] := by
  have hinv : ∀ i, i ≤ N →
      count (stateBefore lower s req env store i) keys.counterKey = (i : Int) ∧
        blocked (stateBefore lower s req env store i) keys.blockKey = false := by
    intro i
    induction i with
    | zero =>
      intro _
      exact ⟨by rw [stateBefore, (henv 0 store).1, hcount]; rfl,
        (henv 0 store).2 hfree⟩
    | succ i ih =>
      intro hi
      obtain ⟨h1, h2⟩ := ih (by omega)
      have hstep := (contract_step lower s req count blocked hc rule keys hres hwin _
        (i : Int) h1 (by omega) (by omega) h2).1 (by rw [hN]; omega)
      refine ⟨?_, ?_⟩
      · rw [stateBefore, (henv _ _).1, hstep.2.2.1]
        push_cast
        rfl
      · rw [stateBefore]
        exact (henv _ _).2 hstep.2.2.2
  refine ⟨?_, ?_, ?_⟩
  · intro i hi
    obtain ⟨h1, h2⟩ := hinv i (by omega)
    exact ((contract_step lower s req count blocked hc rule keys hres hwin _
      (i : Int) h1 (by omega) (by omega) h2).1 (by rw [hN]; omega)).1
  · obtain ⟨h1, h2⟩ := hinv N le_rfl
    exact ((contract_step lower s req count blocked hc rule keys hres hwin _
      (N : Int) h1 (by omega) hfit h2).2 (by rw [hN]; omega)).1
  · obtain ⟨h1, h2⟩ := hinv N le_rfl
    exact ((contract_step lower s req count blocked hc rule keys hres hwin _
      (N : Int) h1 (by omega) hfit h2).2 (by rw [hN]; omega)).2.1

/-- C1, evaluated on the in-memory store of the tests with the rule of two requests per
second: the first two calls for `10.0.0.1` are allowed with counts 1 and 2, the third is
rejected with `ErrBlocked`, count 3, after `SetBlock` for one minute. -/
theorem first_requests_allowed_then_blocked_witness :
    (scenario.service.Allow asciiLower { IP := "10.0.0.1" }
        (stateBefore asciiLower scenario.service { IP := "10.0.0.1" }
          (fun _ => testWorld.sleep 1) scenario.freshWorld 0)).1 =
      ({ Allowed := true, Identifier := "10.0.0.1", AppliedRule := scenario.ipRule,
         CurrentCount := 1 }, none) ∧
    (scenario.service.Allow asciiLower { IP := "10.0.0.1" }
        (stateBefore asciiLower scenario.service { IP := "10.0.0.1" }
          (fun _ => testWorld.sleep 1) scenario.freshWorld 1)).1 =
      ({ Allowed := true, Identifier := "10.0.0.1", AppliedRule := scenario.ipRule,
         CurrentCount := 2 }, none) ∧
    (scenario.service.Allow asciiLower { IP := "10.0.0.1" }
        (stateBefore asciiLower scenario.service { IP := "10.0.0.1" }
          (fun _ => testWorld.sleep 1) scenario.freshWorld 2)).1 =
      ({ Allowed := false, Identifier := "10.0.0.1", AppliedRule := scenario.ipRule,
         CurrentCount := 3 }, some .ErrBlocked) ∧
    storeCalls asciiLower scenario.service { IP := "10.0.0.1" }
        (stateBefore asciiLower scenario.service { IP := "10.0.0.1" }
          (fun _ => testWorld.sleep 1) scenario.freshWorld 2) =
      [.IsBlocked "ratelimit:ip:10.0.0.1:block" (.ok false),
        .Increment "ratelimit:ip:10.0.0.1" scenario.second (.ok 3),
        .SetBlock "ratelimit:ip:10.0.0.1:block" scenario.minute none] :=
  have h := first_requests_allowed_then_blocked asciiLower scenario.service
    { IP := "10.0.0.1" } mockCount mockBlocked mock_meets_contract scenario.ipRule
    (buildKeys asciiLower "ip" "10.0.0.1") 2 (by decide) (by decide) (by decide) (by decide)
    (fun _ => testWorld.sleep 1)
    (fun _ w => sleep_keeps_mock_state 1 (by decide) _ _ w) scenario.freshWorld
    (by decide) (by decide)
  ⟨h.1 0 (by decide), h.1 1 (by decide), h.2.1, h.2.2⟩

/-- C2. For every store, request and store state: when the request resolves to a rule and the
store reports a block marker on the resolved block key (`IsBlocked` returns true), `Allow`
returns `Allowed = false` with the resolved identifier and the applied rule, together with
`ErrBlocked`, and its only store call is that `IsBlocked` (no `Increment`, no `SetBlock`).
On a store that meets the Counter Store Port contract, as long as the surroundings keep the
marker in place, every later `Allow` for the request is rejected in the same way and leaves
every counter at the value it had before the call. -/
theorem blocked_identifier_is_rejected_without_increment {σ : Type} (lower : Char → Char)
    (s : RateLimiterService σ) (req : RateLimitRequest) (store : σ) (rule : RateLimitRule)
    (keys : resolvedKeys) (hres : s.resolveRule lower req = .ok (rule, keys))
    (hb : (s.storage.IsBlocked keys.blockKey store).1 = .ok true) :
    (s.Allow lower req store).1 =
        ({ Allowed := false, Identifier := keys.identifier, AppliedRule := rule },
          some .ErrBlocked) ∧
      storeCalls lower s req store = [.IsBlocked keys.blockKey (.ok true)] ∧
      ∀ (count : σ → String → Int) (blocked : σ → String → Bool),
        MeetsContract s.storage count blocked →
        ∀ env : Nat → σ → σ,
          (∀ i w, blocked w keys.blockKey = true → blocked (env i w) keys.blockKey = true) →
          ∀ i,
            (s.Allow lower req (stateBefore lower s req env store i)).1 =
                ({ Allowed := false, Identifier := keys.identifier, AppliedRule := rule },
                  some .ErrBlocked) ∧
              storeCalls lower s req (stateBefore lower s req env store i) =
                [.IsBlocked keys.blockKey (.ok true)] ∧
              ∀ k, count (s.Allow lower req (stateBefore lower s req env store i)).2 k =
                count (stateBefore lower s req env store i) k := by
  obtain ⟨h1, h2⟩ := allow_isBlocked_true lower s req store rule keys hres hb
  refine ⟨by rw [h1], h2, ?_⟩
  intro count blocked hc env henv i
  have hstore : blocked store keys.blockKey = true := by
    have := hc.isBlocked_result keys.blockKey store
    rw [hb] at this
    cases hbv : blocked store keys.blockKey with
    | true => rfl
    | false =>
      rw [hbv] at this
      cases this
  exact contract_blocked_run lower s req count blocked hc rule keys hres env henv store
    hstore i

/-- C2, evaluated on the in-memory store: after `10.0.0.1` has used its two requests and was
blocked by the third, the fourth call only asks `IsBlocked` and is rejected. -/
theorem blocked_identifier_is_rejected_without_increment_witness :
    (scenario.service.Allow asciiLower { IP := "10.0.0.1" }
        (stateBefore asciiLower scenario.service { IP := "10.0.0.1" }
          (fun _ => testWorld.sleep 1) scenario.freshWorld 3)).1 =
      ({ Allowed := false, Identifier := "10.0.0.1", AppliedRule := scenario.ipRule },
        some .ErrBlocked) ∧
    storeCalls asciiLower scenario.service { IP := "10.0.0.1" }
        (stateBefore asciiLower scenario.service { IP := "10.0.0.1" }
          (fun _ => testWorld.sleep 1) scenario.freshWorld 3) =
      [.IsBlocked "ratelimit:ip:10.0.0.1:block" (.ok true)] :=
  have h := blocked_identifier_is_rejected_without_increment asciiLower scenario.service
    { IP := "10.0.0.1" }
    (stateBefore asciiLower scenario.service { IP := "10.0.0.1" }
      (fun _ => testWorld.sleep 1) scenario.freshWorld 3)
    scenario.ipRule (buildKeys asciiLower "ip" "10.0.0.1") (by decide) (by decide)
  ⟨h.1, h.2.1⟩

/-- C3, as amended. For every configuration and every request whose whitespace-trimmed token
is non-empty and is a key of `TokenRules`, whatever the request's IP, the default token rule
and the default IP rule are: rule resolution succeeds with the rule of that entry and the
keys of category `token` built from the token, whose identifier is the trimmed, lower-cased
token; and for every store and store state `Allow` either returns a `Decision` whose
`AppliedRule` is that entry and whose `Identifier` is the normalised token, or a store call
failed and `Allow` returns the zero `Decision` with the error of that call. -/
theorem listed_token_uses_its_rule {σ : Type} (lower : Char → Char)
    (s : RateLimiterService σ) (req : RateLimitRequest) (rule : RateLimitRule)
    (htok : TrimSpace req.Token ≠ "")
    (hin : Config.lookup s.config.TokenRules (TrimSpace req.Token) = some rule) :
    s.resolveRule lower req = .ok (rule, buildKeys lower "token" req.Token) ∧
      (buildKeys lower "token" req.Token).identifier = ToLower lower (TrimSpace req.Token) ∧
      (buildKeys lower "token" req.Token).counterKey =
        "ratelimit:token:" ++ ToLower lower (TrimSpace req.Token) ∧
      ∀ store : σ,
        ((s.Allow lower req store).1.1.AppliedRule = rule ∧
          (s.Allow lower req store).1.1.Identifier = ToLower lower (TrimSpace req.Token)) ∨
        (∃ call err, call ∈ storeCalls lower s req store ∧ call.failure = some err ∧
          (s.Allow lower req store).1 = ({}, some err)) := by
  have hres := resolveRule_listed lower s req rule htok hin
  refine ⟨hres, rfl, ?_, ?_⟩
  · apply String.ext
    simp [buildKeys, String.data_append]
  · intro store
    rcases allow_outcome lower s req store rule _ hres with
      ⟨calls, c0, e0, hc, hf0, _, hall⟩ | ⟨_, h1, h2⟩
    · exact Or.inr ⟨c0, e0, by rw [hc]; simp, hf0, hall⟩
    · exact Or.inl ⟨h1, h2⟩

/-- C3, evaluated: the token `abc123` with its override, sent from an IP or without one. -/
theorem listed_token_uses_its_rule_witness :
    scenario.service.resolveRule asciiLower { IP := "203.0.113.10", Token := "abc123" } =
        .ok (scenario.tokenRule, buildKeys asciiLower "token" "abc123") ∧
      scenario.service.resolveRule asciiLower { IP := "", Token := " abc123 " } =
        .ok (scenario.tokenRule, buildKeys asciiLower "token" " abc123 ") :=
  ⟨(listed_token_uses_its_rule asciiLower scenario.service
      { IP := "203.0.113.10", Token := "abc123" } scenario.tokenRule
      (by decide) (by decide)).1,
    (listed_token_uses_its_rule asciiLower scenario.service
      { IP := "", Token := " abc123 " } scenario.tokenRule (by decide) (by decide)).1⟩

/-- C3 as stated fails. A token that is non-empty and a key of `TokenRules` as it stands,
but is padded with blanks, is looked up without the blanks and is not found: the request is
resolved by its IP under the default IP rule.  And when a store call fails, the `Decision`
of a listed token does not carry the entry of the token but is the zero `Decision`. -/
theorem listed_token_counterexample :
    (({ IP := "10.0.0.1", Token := " vip " } : RateLimitRequest).Token ≠ "" ∧
      Config.lookup scenario.paddedService.config.TokenRules " vip " =
        some scenario.tokenRule ∧
      scenario.paddedService.resolveRule asciiLower { IP := "10.0.0.1", Token := " vip " } ≠
        .ok (scenario.tokenRule, buildKeys asciiLower "token" " vip ") ∧
      scenario.paddedService.resolveRule asciiLower { IP := "10.0.0.1", Token := " vip " } =
        .ok (scenario.ipRule, buildKeys asciiLower "ip" "10.0.0.1")) ∧
    (Config.lookup scenario.brokenIsBlockedService.config.TokenRules "abc123" =
        some scenario.tokenRule ∧
      (scenario.brokenIsBlockedService.Allow asciiLower
          { IP := "10.0.0.1", Token := "abc123" } scenario.freshWorld).1 =
        ({}, some (.StoreFailure "connection refused")) ∧
      (scenario.brokenIsBlockedService.Allow asciiLower
          { IP := "10.0.0.1", Token := "abc123" } scenario.freshWorld).1.1.AppliedRule ≠
        scenario.tokenRule) := by
  decide

/-- C4, as amended. For every request whose whitespace-trimmed token is non-empty and is not
a key of `TokenRules`: if the default token rule has `Requests > 0` and `Window > 0`,
resolution uses the default token rule with the keys of category `token` built from the
token; otherwise resolution falls through to the IP branch, which, when the trimmed IP is
non-empty, uses the default IP rule with the keys of category `ip` built from the IP (keys
that differ from the token's counter and block keys), and which fails with the validation
error when the trimmed IP is empty. -/
theorem unlisted_token_resolution {σ : Type} (lower : Char → Char)
    (s : RateLimiterService σ) (req : RateLimitRequest)
    (htok : TrimSpace req.Token ≠ "")
    (hnot : Config.lookup s.config.TokenRules (TrimSpace req.Token) = none) :
    (s.config.DefaultTokenRule.Requests > 0 ∧ s.config.DefaultTokenRule.Window > 0 →
      s.resolveRule lower req =
        .ok (s.config.DefaultTokenRule, buildKeys lower "token" req.Token)) ∧
    (¬ (s.config.DefaultTokenRule.Requests > 0 ∧ s.config.DefaultTokenRule.Window > 0) →
      (TrimSpace req.IP ≠ "" →
        s.resolveRule lower req = .ok (s.config.DefaultIPRule, buildKeys lower "ip" req.IP) ∧
        (buildKeys lower "ip" req.IP).counterKey ≠
          (buildKeys lower "token" req.Token).counterKey ∧
        (buildKeys lower "ip" req.IP).blockKey ≠
          (buildKeys lower "token" req.Token).blockKey) ∧
      (TrimSpace req.IP = "" →
        s.resolveRule lower req =
          .error (.Errorf "ip address is required when token has no override"))) := by
  refine ⟨fun hdef => resolveRule_default_token lower s req htok hnot hdef, fun hdef => ?_⟩
  have h := resolveRule_by_ip lower s req (Or.inr ⟨hnot, hdef⟩)
  constructor
  · intro hip
    rw [if_neg hip] at h
    exact ⟨h, (ip_keys_ne_token_keys lower _ _).1, (ip_keys_ne_token_keys lower _ _).2⟩
  · intro hip
    rw [if_pos hip] at h
    exact h

/-- C4, evaluated: the unlisted token `dynamic` under a default token rule, and under none. -/
theorem unlisted_token_resolution_witness :
    scenario.defaultTokenService.resolveRule asciiLower
        { IP := "198.51.100.5", Token := "dynamic" } =
      .ok (scenario.tokenRule, buildKeys asciiLower "token" "dynamic") ∧
    scenario.service.resolveRule asciiLower { IP := "198.51.100.5", Token := "dynamic" } =
      .ok (scenario.ipRule, buildKeys asciiLower "ip" "198.51.100.5") :=
  ⟨(unlisted_token_resolution asciiLower scenario.defaultTokenService
      { IP := "198.51.100.5", Token := "dynamic" } (by decide) (by decide)).1 (by decide),
    ((unlisted_token_resolution asciiLower scenario.service
      { IP := "198.51.100.5", Token := "dynamic" } (by decide) (by decide)).2
        (by decide)).1 (by decide) |>.1⟩

/-- C4 as stated fails. An unlisted token without a default token rule and with an empty IP
does not fall through to the default IP rule: resolution fails.  And a token of blanks is
non-empty and unlisted, yet with a valid default token rule it is resolved by the IP under
the default IP rule, not under the default token rule. -/
theorem unlisted_token_counterexample :
    (({ IP := "", Token := "guest" } : RateLimitRequest).Token ≠ "" ∧
      Config.lookup scenario.service.config.TokenRules "guest" = none ∧
      ¬ (scenario.service.config.DefaultTokenRule.Requests > 0 ∧
          scenario.service.config.DefaultTokenRule.Window > 0) ∧
      scenario.service.resolveRule asciiLower { IP := "", Token := "guest" } =
        .error (.Errorf "ip address is required when token has no override")) ∧
    (({ IP := "10.0.0.1", Token := " " } : RateLimitRequest).Token ≠ "" ∧
      Config.lookup scenario.defaultTokenService.config.TokenRules " " = none ∧
      (scenario.defaultTokenService.config.DefaultTokenRule.Requests > 0 ∧
          scenario.defaultTokenService.config.DefaultTokenRule.Window > 0) ∧
      scenario.defaultTokenService.resolveRule asciiLower { IP := "10.0.0.1", Token := " " } =
        .ok (scenario.ipRule, buildKeys asciiLower "ip" "10.0.0.1")) := by
  decide

/-- C6, as amended. Rule resolution fails exactly when the whitespace-trimmed IP is empty and
the whitespace-trimmed token is empty or is neither a key of `TokenRules` nor covered by a
default token rule with `Requests > 0` and `Window > 0`.  In that case `Allow` returns the
validation error, which is not `ErrBlocked`, with the zero `Decision` (`Allowed = false`),
makes no store call and leaves the store as it is. -/
theorem identity_required {σ : Type} (lower : Char → Char) (s : RateLimiterService σ)
    (req : RateLimitRequest) :
    ((∃ err, s.resolveRule lower req = .error err) ↔
      (TrimSpace req.IP = "" ∧
        (TrimSpace req.Token = "" ∨
          (Config.lookup s.config.TokenRules (TrimSpace req.Token) = none ∧
            ¬ (s.config.DefaultTokenRule.Requests > 0 ∧
              s.config.DefaultTokenRule.Window > 0))))) ∧
    ((TrimSpace req.IP = "" ∧
        (TrimSpace req.Token = "" ∨
          (Config.lookup s.config.TokenRules (TrimSpace req.Token) = none ∧
            ¬ (s.config.DefaultTokenRule.Requests > 0 ∧
              s.config.DefaultTokenRule.Window > 0)))) →
      ∀ store : σ,
        s.Allow lower req store =
          (({}, some (.Errorf "ip address is required when token has no override")), store) ∧
        storeCalls lower s req store = [] ∧
        IsBlockedError (s.Allow lower req store).1.2 = false ∧
        (s.Allow lower req store).1.1.Allowed = false) := by
  have hfail : (TrimSpace req.IP = "" ∧
        (TrimSpace req.Token = "" ∨
          (Config.lookup s.config.TokenRules (TrimSpace req.Token) = none ∧
            ¬ (s.config.DefaultTokenRule.Requests > 0 ∧
              s.config.DefaultTokenRule.Window > 0)))) →
      s.resolveRule lower req =
        .error (.Errorf "ip address is required when token has no override") := by
    rintro ⟨hip, hskip⟩
    rw [resolveRule_by_ip lower s req hskip, if_pos hip]
  refine ⟨⟨?_, fun h => ⟨_, hfail h⟩⟩, ?_⟩
  · rintro ⟨err, herr⟩
    by_cases ht : TrimSpace req.Token = ""
    · rw [resolveRule_by_ip lower s req (Or.inl ht)] at herr
      by_cases hip : TrimSpace req.IP = ""
      · exact ⟨hip, Or.inl ht⟩
      · rw [if_neg hip] at herr
        cases herr
    · cases hl : Config.lookup s.config.TokenRules (TrimSpace req.Token) with
      | some r =>
        rw [resolveRule_listed lower s req r ht hl] at herr
        cases herr
      | none =>
        by_cases hdef :
            s.config.DefaultTokenRule.Requests > 0 ∧ s.config.DefaultTokenRule.Window > 0
        · rw [resolveRule_default_token lower s req ht hl hdef] at herr
          cases herr
        · rw [resolveRule_by_ip lower s req (Or.inr ⟨hl, hdef⟩)] at herr
          by_cases hip : TrimSpace req.IP = ""
          · exact ⟨hip, Or.inr ⟨rfl, hdef⟩⟩
          · rw [if_neg hip] at herr
            cases herr
  · intro h store
    obtain ⟨h1, h2⟩ := allow_resolve_error lower s req store _ (hfail h)
    refine ⟨h1, h2, ?_, ?_⟩
    · rw [h1]
      rfl
    · rw [h1]

/-- C6, evaluated: a request without IP and token, and one without IP whose token is
unlisted while no default token rule is configured, are refused by validation without a
store call. -/
theorem identity_required_witness :
    (scenario.service.Allow asciiLower { IP := "", Token := "" } scenario.freshWorld).1 =
      ({}, some (.Errorf "ip address is required when token has no override")) ∧
    storeCalls asciiLower scenario.service { IP := "", Token := "guest" }
      scenario.freshWorld = [] :=
  ⟨by
      rw [((identity_required asciiLower scenario.service { IP := "", Token := "" }).2
        (by decide) scenario.freshWorld).1],
    ((identity_required asciiLower scenario.service { IP := "", Token := "guest" }).2
      (by decide) scenario.freshWorld).2.1⟩

/-- C6 as stated fails in both directions. A request with an empty IP whose token ` abc123 `
is, as it stands, not a key of `TokenRules` (no default token rule configured) is not
refused: the trimmed token is found, the store is called and the request is allowed.  And
resolution also fails for a request whose IP is not empty but consists of a blank. -/
theorem identity_required_counterexample :
    (({ IP := "", Token := " abc123 " } : RateLimitRequest).IP = "" ∧
      Config.lookup scenario.service.config.TokenRules " abc123 " = none ∧
      ¬ (scenario.service.config.DefaultTokenRule.Requests > 0 ∧
          scenario.service.config.DefaultTokenRule.Window > 0) ∧
      (scenario.service.Allow asciiLower { IP := "", Token := " abc123 " }
          scenario.freshWorld).1 =
        ({ Allowed := true, Identifier := "abc123", AppliedRule := scenario.tokenRule,
            CurrentCount := 1 }, none) ∧
      storeCalls asciiLower scenario.service { IP := "", Token := " abc123 " }
          scenario.freshWorld =
        [.IsBlocked "ratelimit:token:abc123:block" (.ok false),
          .Increment "ratelimit:token:abc123" scenario.second (.ok 1)]) ∧
    (({ IP := " ", Token := "" } : RateLimitRequest).IP ≠ "" ∧
      scenario.service.resolveRule asciiLower { IP := " ", Token := "" } =
        .error (.Errorf "ip address is required when token has no override")) := by
  decide

/-- C7. `NewRateLimiterService` returns an error (and no service) if and only if the storage
is nil or the default IP rule has `Requests <= 0` or `Window <= 0`.  In every other case it
returns a service that holds the given storage, the given default IP rule and default token
rule whatever they contain, and a non-nil `TokenRules` map with the entries of the given map
(none for a nil map); a non-nil map is kept as it is. -/
theorem constructor_contract {σ : Type} (storage : Option (ports.Storage σ)) (cfg : Config) :
    ((∃ err, NewRateLimiterService storage cfg = .error err) ↔
      (storage = none ∨ cfg.DefaultIPRule.Requests ≤ 0 ∨ cfg.DefaultIPRule.Window ≤ 0)) ∧
    (∀ st, storage = some st →
      ¬ (cfg.DefaultIPRule.Requests ≤ 0 ∨ cfg.DefaultIPRule.Window ≤ 0) →
      ∃ svc, NewRateLimiterService storage cfg = .ok svc ∧
        svc.storage = st ∧
        svc.config.DefaultIPRule = cfg.DefaultIPRule ∧
        svc.config.DefaultTokenRule = cfg.DefaultTokenRule ∧
        svc.config.TokenRules ≠ none ∧
        (∀ key, Config.lookup svc.config.TokenRules key = Config.lookup cfg.TokenRules key) ∧
        (cfg.TokenRules ≠ none → svc.config = cfg)) := by
  constructor
  · cases storage with
    | none => simp [NewRateLimiterService]
    | some st =>
      by_cases h : cfg.DefaultIPRule.Requests ≤ 0 ∨ cfg.DefaultIPRule.Window ≤ 0
      · simp [NewRateLimiterService, h]
      · simp only [NewRateLimiterService, if_neg h]
        simp only [reduceCtorEq, exists_false, false_or, false_iff]
        exact h
  · intro st hst h
    subst hst
    simp only [NewRateLimiterService, if_neg h]
    rcases cfg with ⟨ipRule, tokRule, rules⟩
    cases rules with
    | none =>
      exact ⟨_, rfl, rfl, rfl, rfl, by simp, fun key => rfl, fun hne => absurd rfl hne⟩
    | some m =>
      exact ⟨_, rfl, rfl, rfl, rfl, by simp, fun key => rfl, fun _ => rfl⟩

/-- C7, evaluated: the configuration of the tests (no `TokenRules` map given) is accepted
and leaves the service with an empty map; a default IP rule without requests is refused. -/
theorem constructor_contract_witness :
    (∃ svc, NewRateLimiterService (some mockStorage.port)
        { DefaultIPRule := scenario.ipRule } = .ok svc ∧
      svc.config.DefaultIPRule = scenario.ipRule ∧ svc.config.TokenRules ≠ none ∧
      ∀ key, Config.lookup svc.config.TokenRules key = none) ∧
    (∃ err, NewRateLimiterService (some mockStorage.port)
        { DefaultIPRule := { Requests := 0, Window := scenario.second } } = .error err) :=
  ⟨by
      obtain ⟨svc, h1, _, h3, _, h5, h6, _⟩ :=
        (constructor_contract (some mockStorage.port)
          { DefaultIPRule := scenario.ipRule }).2 mockStorage.port rfl (by decide)
      exact ⟨svc, h1, h3, h5, h6⟩,
    (constructor_contract (some mockStorage.port)
      { DefaultIPRule := { Requests := 0, Window := scenario.second } }).1.mpr
      (Or.inr (Or.inl (by decide)))⟩

/-- C8. Whenever a store operation invoked by `Allow` fails (any store, any request, any
state), that call is the last store call of the run, and `Allow` returns exactly the error of
that call together with the zero `Decision`, whose `Allowed` is false. -/
theorem store_failure_is_returned {σ : Type} (lower : Char → Char)
    (s : RateLimiterService σ) (req : RateLimitRequest) (store : σ)
    (before after : List StoreCall) (call : StoreCall) (err : GoError)
    (hcalls : storeCalls lower s req store = before ++ call :: after)
    (hfail : call.failure = some err) :
    (s.Allow lower req store).1 = ({}, some err) ∧ after = [] ∧
      (s.Allow lower req store).1.1.Allowed = false := by
  rcases hres : s.resolveRule lower req with e | ⟨rule, keys⟩
  · have h := (allow_resolve_error lower s req store e hres).2
    rw [h] at hcalls
    simp at hcalls
  rcases allow_outcome lower s req store rule keys hres with
    ⟨calls, c0, e0, hc, hf0, hnone, hall⟩ | ⟨hnone, _, _⟩
  · rw [hc] at hcalls
    rcases List.eq_nil_or_concat after with ha | ⟨a, x, ha⟩
    · subst ha
      have h2 : calls ++ [c0] = before ++ [call] := hcalls
      obtain ⟨_, h4⟩ := List.append_inj' h2 rfl
      simp only [List.cons.injEq, and_true] at h4
      subst h4
      rw [hf0] at hfail
      cases hfail
      refine ⟨hall, rfl, ?_⟩
      rw [hall]
    · exfalso
      subst ha
      have h2 : calls ++ [c0] = (before ++ call :: a) ++ [x] := by
        rw [hcalls]
        simp
      obtain ⟨h3, _⟩ := List.append_inj' h2 rfl
      have := hnone call (by rw [h3]; simp)
      rw [this] at hfail
      cases hfail
  · exfalso
    have := hnone call (by rw [hcalls]; simp)
    rw [this] at hfail
    cases hfail

/-- C8, evaluated: over a store whose `SetBlock` fails, the third request of `10.0.0.1` under
the rule of two requests per second gets the store's error and the zero `Decision`. -/
theorem store_failure_is_returned_witness :
    storeCalls asciiLower scenario.brokenSetBlockService { IP := "10.0.0.1" }
        (stateBefore asciiLower scenario.brokenSetBlockService { IP := "10.0.0.1" }
          (fun _ => testWorld.sleep 1) scenario.freshWorld 2) =
      [.IsBlocked "ratelimit:ip:10.0.0.1:block" (.ok false),
        .Increment "ratelimit:ip:10.0.0.1" scenario.second (.ok 3)] ++
        .SetBlock "ratelimit:ip:10.0.0.1:block" scenario.minute
          (some (.StoreFailure "connection refused")) :: [] ∧
    (scenario.brokenSetBlockService.Allow asciiLower { IP := "10.0.0.1" }
        (stateBefore asciiLower scenario.brokenSetBlockService { IP := "10.0.0.1" }
          (fun _ => testWorld.sleep 1) scenario.freshWorld 2)).1 =
      ({}, some (.StoreFailure "connection refused")) :=
  ⟨by decide,
    (store_failure_is_returned asciiLower scenario.brokenSetBlockService { IP := "10.0.0.1" }
      (stateBefore asciiLower scenario.brokenSetBlockService { IP := "10.0.0.1" }
          (fun _ => testWorld.sleep 1) scenario.freshWorld 2)
      [.IsBlocked "ratelimit:ip:10.0.0.1:block" (.ok false),
        .Increment "ratelimit:ip:10.0.0.1" scenario.second (.ok 3)] []
      (.SetBlock "ratelimit:ip:10.0.0.1:block" scenario.minute
        (some (.StoreFailure "connection refused")))
      (.StoreFailure "connection refused") (by decide) rfl).1⟩

/-- C9, as amended. For every store, request and store state, a call of `Allow` that resolved
a rule and was not ended by the block check (`IsBlocked` succeeded with false) performs
exactly one `Increment`, on the resolved counter key with the rule's window, and performs
exactly one `SetBlock`, on the block key with the rule's `BlockDuration`, when the
`Increment` succeeded with a count above the rule's `Requests`, and none otherwise; a call
ended by the block check or by a failing `IsBlocked` performs neither.  On a store that meets
the contract, when the rule's `BlockDuration` is positive, the calls that follow a call with
a `SetBlock` perform only `IsBlocked` for as long as the surroundings keep the marker in
place.  (The count that triggers `SetBlock` need not be the first one above the budget, and
with a non-positive `BlockDuration` no marker is left behind.) -/
theorem store_calls_of_allow {σ : Type} (lower : Char → Char) (s : RateLimiterService σ)
    (req : RateLimitRequest) (store : σ) (rule : RateLimitRule) (keys : resolvedKeys)
    (hres : s.resolveRule lower req = .ok (rule, keys)) :
    ((s.storage.IsBlocked keys.blockKey store).1 ≠ .ok false →
      storeCalls lower s req store =
        [.IsBlocked keys.blockKey (s.storage.IsBlocked keys.blockKey store).1]) ∧
    ((s.storage.IsBlocked keys.blockKey store).1 = .ok false →
      (storeCalls lower s req store).filter StoreCall.isIncrement =
        [.Increment keys.counterKey rule.Window
          (s.storage.Increment keys.counterKey rule.Window
            (s.storage.IsBlocked keys.blockKey store).2).1] ∧
      (storeCalls lower s req store).filter StoreCall.isSetBlock =
        (match (s.storage.Increment keys.counterKey rule.Window
            (s.storage.IsBlocked keys.blockKey store).2).1 with
          | .ok currentCount =>
            if currentCount > rule.Requests then
              [.SetBlock keys.blockKey rule.BlockDuration
                (s.storage.SetBlock keys.blockKey rule.BlockDuration
                  (s.storage.Increment keys.counterKey rule.Window
                    (s.storage.IsBlocked keys.blockKey store).2).2).1]
            else []
          | .error _ => [])) ∧
    (∀ (count : σ → String → Int) (blocked : σ → String → Bool),
      MeetsContract s.storage count blocked → 0 < rule.BlockDuration →
      (storeCalls lower s req store).filter StoreCall.isSetBlock ≠ [] →
      ∀ env : Nat → σ → σ,
        (∀ i w, blocked w keys.blockKey = true → blocked (env i w) keys.blockKey = true) →
        ∀ i, storeCalls lower s req
            (stateBefore lower s req env (s.Allow lower req store).2 i) =
          [.IsBlocked keys.blockKey (.ok true)]) := by
  refine ⟨?_, ?_, ?_⟩
  · intro hb
    rcases hr : (s.storage.IsBlocked keys.blockKey store).1 with err | b
    · exact (allow_isBlocked_error lower s req store rule keys err hres hr).2
    · cases b
      · exact absurd hr hb
      · exact (allow_isBlocked_true lower s req store rule keys hres hr).2
  · intro hb
    rcases hi : (s.storage.Increment keys.counterKey rule.Window
        (s.storage.IsBlocked keys.blockKey store).2).1 with err | c
    · rw [(allow_increment_error lower s req store rule keys err hres hb hi).2]
      simp [StoreCall.isIncrement, StoreCall.isSetBlock]
    · by_cases hc : c > rule.Requests
      · rcases hs : (s.storage.SetBlock keys.blockKey rule.BlockDuration
            (s.storage.Increment keys.counterKey rule.Window
              (s.storage.IsBlocked keys.blockKey store).2).2).1 with _ | err
        · rw [(allow_setBlock_ok lower s req store rule keys c hres hb hi hc hs).2]
          simp [StoreCall.isIncrement, StoreCall.isSetBlock, hc]
        · rw [(allow_setBlock_error lower s req store rule keys c err hres hb hi hc hs).2]
          simp [StoreCall.isIncrement, StoreCall.isSetBlock, hc]
      · rw [(allow_within_budget lower s req store rule keys c hres hb hi hc).2]
        simp [StoreCall.isIncrement, StoreCall.isSetBlock, hc]
  · intro count blocked hc hbd hset env henv i
    refine (contract_blocked_run lower s req count blocked hc rule keys hres env henv
      (s.Allow lower req store).2 ?_ i).2.1
    have hib := hc.isBlocked_result keys.blockKey store
    cases hbv : blocked store keys.blockKey with
    | true =>
      rw [hbv] at hib
      rw [(allow_isBlocked_true lower s req store rule keys hres hib).2] at hset
      simp [StoreCall.isSetBlock] at hset
    | false =>
      rw [hbv] at hib
      rcases hi : (s.storage.Increment keys.counterKey rule.Window
          (s.storage.IsBlocked keys.blockKey store).2).1 with err | c
      · rw [(allow_increment_error lower s req store rule keys err hres hib hi).2] at hset
        simp [StoreCall.isSetBlock] at hset
      · by_cases hgt : c > rule.Requests
        · have hs := hc.setBlock_result keys.blockKey rule.BlockDuration
            (s.storage.Increment keys.counterKey rule.Window
              (s.storage.IsBlocked keys.blockKey store).2).2
          rw [(allow_setBlock_ok lower s req store rule keys c hres hib hi hgt hs.1).1]
          simp only
          rw [hs.2]
          exact decide_eq_true hbd
        · rw [(allow_within_budget lower s req store rule keys c hres hib hi hgt).2] at hset
          simp [StoreCall.isSetBlock] at hset

/-- C9, evaluated on the in-memory store: the third call for `10.0.0.1` under the rule of two
requests per second makes one `Increment` and one `SetBlock`. -/
theorem store_calls_of_allow_witness :
    (storeCalls asciiLower scenario.service { IP := "10.0.0.1" }
        (stateBefore asciiLower scenario.service { IP := "10.0.0.1" }
          (fun _ => testWorld.sleep 1) scenario.freshWorld 2)).filter StoreCall.isIncrement =
      [.Increment "ratelimit:ip:10.0.0.1" scenario.second (.ok 3)] ∧
    (storeCalls asciiLower scenario.service { IP := "10.0.0.1" }
        (stateBefore asciiLower scenario.service { IP := "10.0.0.1" }
          (fun _ => testWorld.sleep 1) scenario.freshWorld 2)).filter StoreCall.isSetBlock =
      [.SetBlock "ratelimit:ip:10.0.0.1:block" scenario.minute none] :=
  (store_calls_of_allow asciiLower scenario.service { IP := "10.0.0.1" }
    (stateBefore asciiLower scenario.service { IP := "10.0.0.1" }
      (fun _ => testWorld.sleep 1) scenario.freshWorld 2)
    scenario.ipRule (buildKeys asciiLower "ip" "10.0.0.1") (by decide)).2.1 (by decide)

/-- C9 as stated fails. Under a rule of one request per second that blocks for no time, the
second and the third call for `10.0.0.1`, one nanosecond apart, both perform `SetBlock`: two
`SetBlock` calls for one identifier in one window, the second of them on a counter that was
over the budget before the call; the third call is not short-circuited. -/
theorem store_calls_counterexample :
    storeCalls asciiLower scenario.noBlockService { IP := "10.0.0.1" }
        (stateBefore asciiLower scenario.noBlockService { IP := "10.0.0.1" }
          (fun _ => testWorld.sleep 1) scenario.freshWorld 1) =
      [.IsBlocked "ratelimit:ip:10.0.0.1:block" (.ok false),
        .Increment "ratelimit:ip:10.0.0.1" scenario.second (.ok 2),
        .SetBlock "ratelimit:ip:10.0.0.1:block" 0 none] ∧
    storeCalls asciiLower scenario.noBlockService { IP := "10.0.0.1" }
        (stateBefore asciiLower scenario.noBlockService { IP := "10.0.0.1" }
          (fun _ => testWorld.sleep 1) scenario.freshWorld 2) =
      [.IsBlocked "ratelimit:ip:10.0.0.1:block" (.ok false),
        .Increment "ratelimit:ip:10.0.0.1" scenario.second (.ok 3),
        .SetBlock "ratelimit:ip:10.0.0.1:block" 0 none] ∧
    (stateBefore asciiLower scenario.noBlockService { IP := "10.0.0.1" }
        (fun _ => testWorld.sleep 1) scenario.freshWorld 2).clock = 3 := by
  decide

theorem ip_keys_apart_from_token_keys (lower : Char → Char) (a b : String) :
    (buildKeys lower "ip" a).counterKey ≠ (buildKeys lower "token" b).counterKey ∧
    (buildKeys lower "ip" a).counterKey ≠ (buildKeys lower "token" b).blockKey ∧
    (buildKeys lower "ip" a).blockKey ≠ (buildKeys lower "token" b).counterKey ∧
    (buildKeys lower "ip" a).blockKey ≠ (buildKeys lower "token" b).blockKey := by
  refine ⟨?_, ?_, ?_, ?_⟩ <;> intro h <;>
  · have := congrArg String.data h
    simp [buildKeys, String.data_append] at this

section touched
variable {σ : Type} (lower : Char → Char) (s : RateLimiterService σ) (req : RateLimitRequest)
  (store : σ)

/-- Every store call of a run of `Allow` is `IsBlocked` or `SetBlock` on the resolved block
key or `Increment` on the resolved counter key, and the run leaves the store in the state
left by the last of these calls. -/
theorem allow_calls_and_state (rule : RateLimitRule) (keys : resolvedKeys)
    (hres : s.resolveRule lower req = .ok (rule, keys)) :
    (∀ call ∈ storeCalls lower s req store,
      (∃ r, call = .IsBlocked keys.blockKey r) ∨
      (∃ r, call = .Increment keys.counterKey rule.Window r) ∨
      (∃ r, call = .SetBlock keys.blockKey rule.BlockDuration r)) ∧
    ((s.Allow lower req store).2 = (s.storage.IsBlocked keys.blockKey store).2 ∨
      (s.Allow lower req store).2 =
        (s.storage.Increment keys.counterKey rule.Window
          (s.storage.IsBlocked keys.blockKey store).2).2 ∨
      (s.Allow lower req store).2 =
        (s.storage.SetBlock keys.blockKey rule.BlockDuration
          (s.storage.Increment keys.counterKey rule.Window
            (s.storage.IsBlocked keys.blockKey store).2).2).2) := by
  rcases hb : (s.storage.IsBlocked keys.blockKey store).1 with err | b
  · obtain ⟨h1, h2⟩ := allow_isBlocked_error lower s req store rule keys err hres hb
    refine ⟨?_, Or.inl (by rw [h1])⟩
    rw [h2]
    simp
  cases b
  swap
  · obtain ⟨h1, h2⟩ := allow_isBlocked_true lower s req store rule keys hres hb
    refine ⟨?_, Or.inl (by rw [h1])⟩
    rw [h2]
    simp
  rcases hi : (s.storage.Increment keys.counterKey rule.Window
      (s.storage.IsBlocked keys.blockKey store).2).1 with err | c
  · obtain ⟨h1, h2⟩ := allow_increment_error lower s req store rule keys err hres hb hi
    refine ⟨?_, Or.inr (Or.inl (by rw [h1]))⟩
    rw [h2]
    simp
  by_cases hc : c > rule.Requests
  swap
  · obtain ⟨h1, h2⟩ := allow_within_budget lower s req store rule keys c hres hb hi hc
    refine ⟨?_, Or.inr (Or.inl (by rw [h1]))⟩
    rw [h2]
    simp
  rcases hs : (s.storage.SetBlock keys.blockKey rule.BlockDuration
      (s.storage.Increment keys.counterKey rule.Window
        (s.storage.IsBlocked keys.blockKey store).2).2).1 with _ | err
  · obtain ⟨h1, h2⟩ := allow_setBlock_ok lower s req store rule keys c hres hb hi hc hs
    refine ⟨?_, Or.inr (Or.inr (by rw [h1]))⟩
    rw [h2]
    simp
  · obtain ⟨h1, h2⟩ := allow_setBlock_error lower s req store rule keys c err hres hb hi hc hs
    refine ⟨?_, Or.inr (Or.inr (by rw [h1]))⟩
    rw [h2]
    simp

/-- On a contract store a run of `Allow` changes neither the counter nor the block marker of
a key other than the resolved counter key and block key. -/
theorem allow_frame (count : σ → String → Int) (blocked : σ → String → Bool)
    (hc : MeetsContract s.storage count blocked) (rule : RateLimitRule)
    (keys : resolvedKeys) (hres : s.resolveRule lower req = .ok (rule, keys)) (k : String)
    (hk1 : k ≠ keys.counterKey) (hk2 : k ≠ keys.blockKey) :
    count (s.Allow lower req store).2 k = count store k ∧
      blocked (s.Allow lower req store).2 k = blocked store k := by
  have f1 := hc.isBlocked_frame keys.blockKey store k
  have f2 := hc.increment_frame keys.counterKey rule.Window
    (s.storage.IsBlocked keys.blockKey store).2 k hk1
  have f3 := hc.setBlock_frame keys.blockKey rule.BlockDuration
    (s.storage.Increment keys.counterKey rule.Window
      (s.storage.IsBlocked keys.blockKey store).2).2 k hk2
  rcases (allow_calls_and_state lower s req store rule keys hres).2 with h | h | h
  · rw [h]
    exact f1
  · rw [h]
    exact ⟨f2.1.trans f1.1, f2.2.trans f1.2⟩
  · rw [h]
    exact ⟨f3.1.trans (f2.1.trans f1.1), f3.2.trans (f2.2.trans f1.2)⟩

/-- On a contract store the outcome of `Allow` and its store calls are the same in any two
store states that agree on the resolved counter and on the resolved block marker. -/
theorem allow_depends_on_resolved_keys (count : σ → String → Int)
    (blocked : σ → String → Bool) (hc : MeetsContract s.storage count blocked)
    (rule : RateLimitRule) (keys : resolvedKeys)
    (hres : s.resolveRule lower req = .ok (rule, keys)) (other : σ)
    (hcount : count other keys.counterKey = count store keys.counterKey)
    (hblocked : blocked other keys.blockKey = blocked store keys.blockKey)
    (hguard : blocked store keys.blockKey = true ∨
      (0 < rule.Window ∧ 0 ≤ count store keys.counterKey ∧
        count store keys.counterKey + 1 < 9223372036854775808)) :
    (s.Allow lower req other).1 = (s.Allow lower req store).1 ∧
      storeCalls lower s req other = storeCalls lower s req store := by
  cases hb : blocked store keys.blockKey with
  | true =>
    have h1 : (s.storage.IsBlocked keys.blockKey store).1 = .ok true := by
      rw [hc.isBlocked_result, hb]
    have h2 : (s.storage.IsBlocked keys.blockKey other).1 = .ok true := by
      rw [hc.isBlocked_result, hblocked, hb]
    obtain ⟨a1, a2⟩ := allow_isBlocked_true lower s req store rule keys hres h1
    obtain ⟨b1, b2⟩ := allow_isBlocked_true lower s req other rule keys hres h2
    exact ⟨by rw [a1, b1], by rw [a2, b2]⟩
  | false =>
    rcases hguard with hg | ⟨hwin, h0, hfit⟩
    · rw [hb] at hg
      cases hg
    · have st1 := contract_step lower s req count blocked hc rule keys hres hwin store
        (count store keys.counterKey) rfl h0 hfit hb
      have st2 := contract_step lower s req count blocked hc rule keys hres hwin other
        (count store keys.counterKey) hcount h0 hfit (by rw [hblocked, hb])
      by_cases hgt : count store keys.counterKey + 1 > rule.Requests
      · obtain ⟨a1, a2, _⟩ := st1.2 hgt
        obtain ⟨b1, b2, _⟩ := st2.2 hgt
        exact ⟨by rw [a1, b1], by rw [a2, b2]⟩
      · obtain ⟨a1, a2, _⟩ := st1.1 hgt
        obtain ⟨b1, b2, _⟩ := st2.1 hgt
        exact ⟨by rw [a1, b1], by rw [a2, b2]⟩

end touched

/-- C11: the code at the failing input. The requests of the IPs `10.0.0.1:block` and
`10.0.0.1` both resolve, and the counter key of the first is the block key of the second.
On the Redis store, whose counters and block markers share one keyspace, a single allowed
request of `10.0.0.1:block` creates that key: `IsBlocked` then reports a block marker for
`10.0.0.1`, whose first request is rejected with `ErrBlocked`, while on a server without that
key it is allowed.  The same holds for the tokens `abc:block` and `abc` under the default
token rule. -/
theorem counter_key_is_block_key_of_other_identity :
    scenario.redisService.resolveRule asciiLower { IP := "10.0.0.1:block" } =
      .ok (scenario.ipRule,
        { counterKey := "ratelimit:ip:10.0.0.1:block",
          blockKey := "ratelimit:ip:10.0.0.1:block:block", identifier := "10.0.0.1:block" }) ∧
    scenario.redisService.resolveRule asciiLower { IP := "10.0.0.1" } =
      .ok (scenario.ipRule,
        { counterKey := "ratelimit:ip:10.0.0.1", blockKey := "ratelimit:ip:10.0.0.1:block",
          identifier := "10.0.0.1" }) ∧
    (scenario.redisService.Allow asciiLower { IP := "10.0.0.1:block" }
        scenario.emptyServer).1 =
      ({ Allowed := true, Identifier := "10.0.0.1:block", AppliedRule := scenario.ipRule,
         CurrentCount := 1 }, none) ∧
    storeCalls asciiLower scenario.redisService { IP := "10.0.0.1" }
        (scenario.redisService.Allow asciiLower { IP := "10.0.0.1:block" }
          scenario.emptyServer).2 =
      [.IsBlocked "ratelimit:ip:10.0.0.1:block" (.ok true)] ∧
    (scenario.redisService.Allow asciiLower { IP := "10.0.0.1" }
        (scenario.redisService.Allow asciiLower { IP := "10.0.0.1:block" }
          scenario.emptyServer).2).1 =
      ({ Allowed := false, Identifier := "10.0.0.1", AppliedRule := scenario.ipRule },
        some .ErrBlocked) ∧
    (scenario.redisService.Allow asciiLower { IP := "10.0.0.1" } scenario.emptyServer).1 =
      ({ Allowed := true, Identifier := "10.0.0.1", AppliedRule := scenario.ipRule,
         CurrentCount := 1 }, none) ∧
    (buildKeys asciiLower "token" "abc:block").counterKey =
      (buildKeys asciiLower "token" "abc").blockKey ∧
    (scenario.redisService.Allow asciiLower { IP := "9.9.9.9", Token := "abc" }
        (scenario.redisService.Allow asciiLower { IP := "9.9.9.9", Token := "abc:block" }
          scenario.emptyServer).2).1 =
      ({ Allowed := false, Identifier := "abc", AppliedRule := scenario.tokenRule },
        some .ErrBlocked) := by
  decide

/-- C12. For every store, request and store state, every store call of `Allow` is made on the
counter key or on the block key of the single identity that the request resolved to.  On a
store that meets the contract the counters and block markers under all other keys are as
before the call.  In particular a request resolved by its token makes no store call on the
counter key or block key of any IP and leaves the counter and block marker of every IP
unchanged; and the outcome of `Allow` and its store calls are the same in any two store
states that agree on the counter and block marker of the resolved identity, whatever the
counters and block markers of other identities, such as the request's IP, are. -/
theorem allow_touches_only_resolved_identity {σ : Type} (lower : Char → Char)
    (s : RateLimiterService σ) (req : RateLimitRequest) (store : σ) (rule : RateLimitRule)
    (keys : resolvedKeys) (hres : s.resolveRule lower req = .ok (rule, keys)) :
    (∀ call ∈ storeCalls lower s req store,
      call.key = keys.counterKey ∨ call.key = keys.blockKey) ∧
    (∀ (count : σ → String → Int) (blocked : σ → String → Bool),
      MeetsContract s.storage count blocked →
      (∀ k, k ≠ keys.counterKey → k ≠ keys.blockKey →
        count (s.Allow lower req store).2 k = count store k ∧
          blocked (s.Allow lower req store).2 k = blocked store k) ∧
      (∀ other : σ, count other keys.counterKey = count store keys.counterKey →
        blocked other keys.blockKey = blocked store keys.blockKey →
        (blocked store keys.blockKey = true ∨
          (0 < rule.Window ∧ 0 ≤ count store keys.counterKey ∧
            count store keys.counterKey + 1 < 9223372036854775808)) →
        (s.Allow lower req other).1 = (s.Allow lower req store).1 ∧
          storeCalls lower s req other = storeCalls lower s req store)) ∧
    (∀ token, keys = buildKeys lower "token" token → ∀ ip,
      (∀ call ∈ storeCalls lower s req store,
        call.key ≠ (buildKeys lower "ip" ip).counterKey ∧
          call.key ≠ (buildKeys lower "ip" ip).blockKey) ∧
      (∀ (count : σ → String → Int) (blocked : σ → String → Bool),
        MeetsContract s.storage count blocked →
        (count (s.Allow lower req store).2 (buildKeys lower "ip" ip).counterKey =
            count store (buildKeys lower "ip" ip).counterKey ∧
          blocked (s.Allow lower req store).2 (buildKeys lower "ip" ip).blockKey =
            blocked store (buildKeys lower "ip" ip).blockKey))) := by
  have hkeys : ∀ call ∈ storeCalls lower s req store,
      call.key = keys.counterKey ∨ call.key = keys.blockKey := by
    intro call hcall
    rcases (allow_calls_and_state lower s req store rule keys hres).1 call hcall with
      ⟨r, h⟩ | ⟨r, h⟩ | ⟨r, h⟩
    · exact Or.inr (by rw [h]; rfl)
    · exact Or.inl (by rw [h]; rfl)
    · exact Or.inr (by rw [h]; rfl)
  refine ⟨hkeys, ?_, ?_⟩
  · intro count blocked hc
    exact ⟨fun k hk1 hk2 => allow_frame lower s req store count blocked hc rule keys hres k
        hk1 hk2,
      fun other h1 h2 h3 => allow_depends_on_resolved_keys lower s req store count blocked hc
        rule keys hres other h1 h2 h3⟩
  · intro token htoken ip
    obtain ⟨n1, n2, n3, n4⟩ := ip_keys_apart_from_token_keys lower ip token
    rw [← htoken] at n1 n2 n3 n4
    constructor
    · intro call hcall
      rcases hkeys call hcall with h | h
      · rw [h]
        exact ⟨fun e => n1 e.symm, fun e => n3 e.symm⟩
      · rw [h]
        exact ⟨fun e => n2 e.symm, fun e => n4 e.symm⟩
    · intro count blocked hc
      exact ⟨(allow_frame lower s req store count blocked hc rule keys hres _ n1 n2).1,
        (allow_frame lower s req store count blocked hc rule keys hres _ n3 n4).2⟩

/-- C12, evaluated on the in-memory store: after the IP `203.0.113.10` has used up its two
requests and was blocked, a request from that IP with the token `abc123` makes its store
calls on the keys of the token only, is allowed with count 1 exactly as on a fresh store,
and leaves the block marker of the IP in place. -/
theorem allow_touches_only_resolved_identity_witness :
    storeCalls asciiLower scenario.service { IP := "203.0.113.10", Token := "abc123" }
        (stateBefore asciiLower scenario.service { IP := "203.0.113.10" }
          (fun _ => testWorld.sleep 1) scenario.freshWorld 3) =
      [.IsBlocked "ratelimit:token:abc123:block" (.ok false),
        .Increment "ratelimit:token:abc123" scenario.second (.ok 1)] ∧
    (scenario.service.Allow asciiLower { IP := "203.0.113.10", Token := "abc123" }
        (stateBefore asciiLower scenario.service { IP := "203.0.113.10" }
          (fun _ => testWorld.sleep 1) scenario.freshWorld 3)).1 =
      ({ Allowed := true, Identifier := "abc123", AppliedRule := scenario.tokenRule,
         CurrentCount := 1 }, none) ∧
    mockBlocked
        (scenario.service.Allow asciiLower { IP := "203.0.113.10", Token := "abc123" }
          (stateBefore asciiLower scenario.service { IP := "203.0.113.10" }
            (fun _ => testWorld.sleep 1) scenario.freshWorld 3)).2
        "ratelimit:ip:203.0.113.10:block" = true :=
  have h := allow_touches_only_resolved_identity asciiLower scenario.service
    { IP := "203.0.113.10", Token := "abc123" } scenario.freshWorld scenario.tokenRule
    (buildKeys asciiLower "token" "abc123") (by decide)
  have hsame := (h.2.1 mockCount mockBlocked mock_meets_contract).2
    (stateBefore asciiLower scenario.service { IP := "203.0.113.10" }
      (fun _ => testWorld.sleep 1) scenario.freshWorld 3)
    (by decide) (by decide) (Or.inr (by decide))
  have h3 := allow_touches_only_resolved_identity asciiLower scenario.service
    { IP := "203.0.113.10", Token := "abc123" }
    (stateBefore asciiLower scenario.service { IP := "203.0.113.10" }
      (fun _ => testWorld.sleep 1) scenario.freshWorld 3) scenario.tokenRule
    (buildKeys asciiLower "token" "abc123") (by decide)
  ⟨hsame.2.trans (by decide), hsame.1.trans (by decide),
    ((h3.2.2 "abc123" rfl "203.0.113.10").2 mockCount mockBlocked
      mock_meets_contract).2.trans (by decide)⟩

end RateLimiter
